import Mathlib

/-!
Verification of the agent-escrow service core: a shallow embedding of the
escrow ledger (SQLite store `db.ts`), the HTTP route handlers (`index.ts`)
and the MCP tool handlers (`mcp.ts`), together with proofs of the
specification's testable properties.

Monetary values are embedded as rationals; the JavaScript
`parseFloat(x.toFixed(6))` rounding is embedded as rounding to the nearest
multiple of 10⁻⁶ (`round6`).  SQL tables are embedded as Lean lists, a
guarded `UPDATE ... WHERE` as a conditional map over the list, and
`SELECT ... WHERE id = ?` as `List.find?`.  Exceptions thrown by a statement
(primary-key violation on `INSERT`, `undefined` dereference after an empty
`SELECT`) are embedded as `Option` results.
-/

namespace AgentEscrow

/-- Monetary values (`REAL` columns / JS numbers) are embedded as rationals. -/
abbrev Money := ℚ

/-- `parseFloat(x.toFixed(6))`: round to the nearest multiple of `10⁻⁶`. -/
def round6 (x : Money) : Money := (round (x * 1000000) : ℤ) / 1000000

/-- JavaScript truthiness of a nullable string: `null` and `""` are falsy. -/
def optTruthy : Option String → Bool
  | some s => !(s == "")
  | none => false

/-- `String.prototype.trim`: drop leading and trailing whitespace (embedded
as structural recursion over the character list so that concrete instances
reduce). -/
def jsTrim (s : String) : String :=
  ⟨((s.data.dropWhile Char.isWhitespace).reverse.dropWhile Char.isWhitespace).reverse⟩

/-- One character list begins with another. -/
def listPrefixChars : List Char → List Char → Bool
  | [], _ => true
  | _ :: _, [] => false
  | a :: as, b :: bs => a == b && listPrefixChars as bs

/-- `String.prototype.startsWith`, embedded structurally. -/
def strBeginsWith (s pre : String) : Bool := listPrefixChars pre.data s.data

/-- The `status` column of the `escrows` table. -/
inductive Status
  | funded
  | completed
  | released
  | disputed
  | refunded
deriving DecidableEq, Repr

/-- A row of the `escrows` table (interface `Escrow` in `db.ts`). -/
structure Escrow where
  id : String
  creator_id : String
  counterparty_id : String
  amount_usd : Money
  commission_usd : Money
  description : String
  status : Status
  timeout_hours : ℤ
  created_at : ℤ
  funded_at : Option ℤ
  completed_at : Option ℤ
  released_at : Option ℤ
  disputed_at : Option ℤ
  auto_release_at : ℤ
  referrer_id : Option String
  referral_commission_usd : Money
deriving DecidableEq, Repr

/-- A row of the append-only `escrow_events` table. -/
structure EscrowEvent where
  id : String
  escrow_id : String
  event : String
  actor_id : Option String
  note : String
  created_at : ℤ
deriving DecidableEq, Repr

/-- The single row of the `escrow_stats` table. -/
structure EscrowStats where
  total_created : ℕ
  total_released : ℕ
  total_disputed : ℕ
  total_volume_usd : Money
  total_commission_usd : Money
deriving DecidableEq, Repr

/-- The escrow database: `escrows`, `escrow_events`, and the stats row. -/
structure EscrowState where
  escrows : List Escrow
  events : List EscrowEvent
  stats : EscrowStats
deriving DecidableEq, Repr

/-- A row of the casino `agents` table (interface `CasinoAgent` in `db.ts`). -/
structure CasinoAgent where
  id : String
  balance_usd : Money
  referred_by : Option String
  referral_code : Option String
deriving DecidableEq, Repr

/-- A row of the casino `ledger_entries` table (columns used by the escrow
service; `balance_after` is the balance recorded after the movement). -/
structure LedgerEntry where
  id : String
  agent_id : String
  entry_type : String
  amount : Money
  balance_after : Money
  reason : String
  reference : String
deriving DecidableEq, Repr

/-- The casino database: `agents` and `ledger_entries`. -/
structure Casino where
  agents : List CasinoAgent
  ledger : List LedgerEntry
deriving DecidableEq, Repr

/-- `getCasinoAgent` in `db.ts`: `SELECT ... FROM agents WHERE id = ?`. -/
def getCasinoAgent (c : Casino) (agentId : String) : Option CasinoAgent :=
  c.agents.find? (fun a => a.id == agentId)

/-- Balance of an agent, read through `getCasinoAgent`. -/
def balanceOf (c : Casino) (agentId : String) : Option Money :=
  (getCasinoAgent c agentId).map (fun a => a.balance_usd)

/-- `UPDATE agents SET balance_usd = balance_usd - ? WHERE id = ?`. -/
def debitMap (agentId : String) (amount : Money) (agents : List CasinoAgent) :
    List CasinoAgent :=
  agents.map (fun x =>
    if x.id = agentId then { x with balance_usd := x.balance_usd - amount } else x)

/-- `UPDATE agents SET balance_usd = balance_usd + ? WHERE id = ?`. -/
def creditMap (agentId : String) (amount : Money) (agents : List CasinoAgent) :
    List CasinoAgent :=
  agents.map (fun x =>
    if x.id = agentId then { x with balance_usd := x.balance_usd + amount } else x)

/-- `debitCasinoBalance` in `db.ts`: inside one transaction, select the agent,
return `false` when it is missing or its balance is below `amount`, otherwise
subtract `amount`, append a `debit` ledger entry recording the re-selected
balance (`balance_usd - amount` for the selected row), and return `true`. -/
def debitCasinoBalance (c : Casino) (agentId : String) (amount : Money)
    (reason reference : String) : Casino × Bool :=
  match getCasinoAgent c agentId with
  | none => (c, false)
  | some a =>
    if a.balance_usd < amount then (c, false)
    else
      ({ agents := debitMap agentId amount c.agents,
         ledger := c.ledger ++
           [⟨reference ++ "_debit", agentId, "debit", amount, a.balance_usd - amount,
             reason, reference⟩] }, true)

/-- `creditCasinoBalance` in `db.ts`: inside one transaction, add `amount` to
the agent's balance, re-select the balance, and append a `credit` ledger
entry.  When the agent does not exist the re-select returns no row and the
dereference of its balance throws, rolling the transaction back: embedded as
`none`. -/
def creditCasinoBalance (c : Casino) (agentId : String) (amount : Money)
    (reason reference : String) : Option Casino :=
  match (creditMap agentId amount c.agents).find? (fun a => a.id == agentId) with
  | none => none
  | some a =>
    some { agents := creditMap agentId amount c.agents,
           ledger := c.ledger ++
             [⟨reference ++ "_credit", agentId, "credit", amount, a.balance_usd,
               reason, reference⟩] }

/-- Arguments of `createEscrow` in `db.ts`. -/
structure CreateParams where
  id : String
  creatorId : String
  counterpartyId : String
  amountUsd : Money
  commissionUsd : Money
  description : String
  timeoutHours : ℤ
  referrerId : Option String
  referralCommissionUsd : Money
deriving DecidableEq, Repr

/-- `createEscrow` in `db.ts`: insert a `funded` escrow row
(`created_at`/`funded_at` default to the current time, `auto_release_at` is
`now + timeoutHours*3600`), append the `created` event, and bump
`total_created`/`total_volume_usd`.  If the id already exists the `INSERT`
violates the primary key and throws: embedded as `none` (the event insert and
stats update then do not run). -/
def createEscrow (s : EscrowState) (p : CreateParams) (now : ℤ) : Option EscrowState :=
  if s.escrows.any (fun e => e.id == p.id) then none
  else
    some { escrows := s.escrows ++
             [{ id := p.id, creator_id := p.creatorId, counterparty_id := p.counterpartyId,
                amount_usd := p.amountUsd, commission_usd := p.commissionUsd,
                description := p.description, status := Status.funded,
                timeout_hours := p.timeoutHours, created_at := now, funded_at := some now,
                completed_at := none, released_at := none, disputed_at := none,
                auto_release_at := now + p.timeoutHours * 3600, referrer_id := p.referrerId,
                referral_commission_usd := p.referralCommissionUsd }],
           events := s.events ++
             [⟨p.id ++ "_created", p.id, "created", some p.creatorId, "Escrow created", now⟩],
           stats := { s.stats with
             total_created := s.stats.total_created + 1,
             total_volume_usd := s.stats.total_volume_usd + p.amountUsd } }

/-- `getEscrow` in `db.ts`: `SELECT * FROM escrows WHERE id = ?`. -/
def getEscrow (s : EscrowState) (id : String) : Option Escrow :=
  s.escrows.find? (fun e => e.id == id)

/-- `markCompleted` in `db.ts`: guarded update
(`SET status = completed, completed_at = now WHERE id = ? AND status = funded`)
followed by an unconditional `completed` event insert. -/
def markCompleted (s : EscrowState) (id : String) (counterpartyId : String)
    (now : ℤ) : EscrowState :=
  { escrows := s.escrows.map (fun e =>
      if e.id = id ∧ e.status = Status.funded then
        { e with status := Status.completed, completed_at := some now }
      else e),
    events := s.events ++
      [⟨id ++ "_completed", id, "completed", some counterpartyId,
        "Counterparty marked task complete", now⟩],
    stats := s.stats }

/-- `releaseEscrow` in `db.ts`: guarded update
(`SET status = released, released_at = now WHERE id = ? AND status IN (funded, completed)`),
unconditional `released` event insert, and unconditional stats bump adding the
escrow's `commission_usd` (read back by a subselect on the id) to
`total_commission_usd` and `1` to `total_released`. -/
def releaseEscrow (s : EscrowState) (id : String) (actorId : Option String)
    (note : String) (now : ℤ) : EscrowState :=
  { escrows := s.escrows.map (fun e =>
      if e.id = id ∧ (e.status = Status.funded ∨ e.status = Status.completed) then
        { e with status := Status.released, released_at := some now }
      else e),
    events := s.events ++ [⟨id ++ "_released", id, "released", actorId, note, now⟩],
    stats := { s.stats with
      total_released := s.stats.total_released + 1,
      total_commission_usd := s.stats.total_commission_usd +
        (((getEscrow s id).map (fun e => e.commission_usd)).getD 0) } }

/-- `disputeEscrow` in `db.ts`: guarded update
(`SET status = disputed, disputed_at = now WHERE id = ? AND status IN (funded, completed)`),
unconditional `disputed` event insert, and unconditional `total_disputed` bump. -/
def disputeEscrow (s : EscrowState) (id : String) (actorId : String)
    (reason : String) (now : ℤ) : EscrowState :=
  { escrows := s.escrows.map (fun e =>
      if e.id = id ∧ (e.status = Status.funded ∨ e.status = Status.completed) then
        { e with status := Status.disputed, disputed_at := some now }
      else e),
    events := s.events ++ [⟨id ++ "_disputed", id, "disputed", some actorId, reason, now⟩],
    stats := { s.stats with total_disputed := s.stats.total_disputed + 1 } }

/-- `refundEscrow` in `db.ts`: an UNGUARDED update
(`SET status = refunded, released_at = now WHERE id = ?` — no status
predicate) followed by a `refunded` event insert with a null actor.  The
stats row is not touched. -/
def refundEscrow (s : EscrowState) (id : String) (note : String) (now : ℤ) : EscrowState :=
  { escrows := s.escrows.map (fun e =>
      if e.id = id then { e with status := Status.refunded, released_at := some now } else e),
    events := s.events ++ [⟨id ++ "_refunded", id, "refunded", none, note, now⟩],
    stats := s.stats }

/-- The sweeper's selection predicate:
`status IN (funded, completed) AND auto_release_at <= now`. -/
def isExpired (now : ℤ) (e : Escrow) : Bool :=
  decide ((e.status = Status.funded ∨ e.status = Status.completed) ∧ e.auto_release_at ≤ now)

/-- One iteration of the loop body of `processAutoReleases` in `db.ts`:
credit the creator `amount - commission` (no rounding applied here), credit
the referrer `referral_commission_usd` when `referrer_id` is truthy and the
referral commission is positive, then call `refundEscrow`.  A thrown credit
(`none`) is caught by the surrounding `try` and processing of this escrow
stops, keeping whatever committed before the throw. -/
def autoRefundOne (now : ℤ) (st : EscrowState × Casino) (e : Escrow) :
    EscrowState × Casino :=
  match creditCasinoBalance st.2 e.creator_id (e.amount_usd - e.commission_usd)
      ("escrow_timeout_refund: " ++ e.id) (e.id ++ "_timeout") with
  | none => st
  | some ca1 =>
    match e.referrer_id with
    | some r =>
      if r ≠ "" ∧ 0 < e.referral_commission_usd then
        match creditCasinoBalance ca1 r e.referral_commission_usd
            ("escrow_referral_commission: " ++ e.id) (e.id ++ "_refcom") with
        | none => (st.1, ca1)
        | some ca2 => (refundEscrow st.1 e.id "Auto-refunded after timeout" now, ca2)
      else (refundEscrow st.1 e.id "Auto-refunded after timeout" now, ca1)
    | none => (refundEscrow st.1 e.id "Auto-refunded after timeout" now, ca1)

/-- `processAutoReleases` in `db.ts`: materialise the list of expired
unresolved escrows, then process each in order (failures skip to the next). -/
def processAutoReleases (es : EscrowState) (ca : Casino) (now : ℤ) :
    EscrowState × Casino :=
  (es.escrows.filter (isExpired now)).foldl (autoRefundOne now) (es, ca)

/-- Typed error outcomes of the HTTP route handlers and MCP tool handlers
(the `error` field of the JSON error responses).  `internal_error` also
stands for an uncaught exception reaching the `onError` fallback. -/
inductive ApiError
  | unauthorized
  | invalid_amount
  | invalid_description
  | invalid_counterparty
  | self_escrow
  | counterparty_not_found
  | creator_not_found
  | insufficient_balance
  | debit_failed
  | internal_error
  | not_found
  | forbidden
  | invalid_status
  | release_failed
deriving DecidableEq, Repr

/-- `Math.min(Math.max(1, Math.floor(body.timeout_hours ?? 24)), MAX_TIMEOUT_HOURS)`
with `MAX_TIMEOUT_HOURS = 720`. -/
def clampTimeoutHours (t : Option ℚ) : ℤ :=
  min (max 1 ⌊t.getD 24⌋) 720

/-- `SELECT id FROM agents WHERE referral_code = ?`. -/
def findAgentByReferralCode (c : Casino) (code : String) : Option CasinoAgent :=
  c.agents.find? (fun a => a.referral_code == some code)

/-- Referrer resolution of `POST /escrow/create` (`index.ts`): when a truthy
referral code is supplied, the referrer is the account whose code it is if
that account differs from the creator, and null otherwise (the stored default
referrer is NOT consulted); only when no truthy code is supplied does a
truthy `referred_by` of the creator become the referrer. -/
def resolveReferrerHttp (ca : Casino) (creatorId : String)
    (creatorReferredBy : Option String) (referralCode : Option String) : Option String :=
  if optTruthy referralCode then
    match findAgentByReferralCode ca (referralCode.getD "") with
    | some r => if r.id ≠ creatorId then some r.id else none
    | none => none
  else if optTruthy creatorReferredBy then creatorReferredBy
  else none

/-- Referrer resolution of the MCP `create_escrow` tool (`mcp.ts`): the
referrer starts as the creator's `referred_by` and is overwritten only when a
truthy referral code resolves to an account other than the creator. -/
def resolveReferrerMcp (ca : Casino) (creatorId : String)
    (creatorReferredBy : Option String) (referralCode : Option String) : Option String :=
  if optTruthy referralCode then
    match findAgentByReferralCode ca (referralCode.getD "") with
    | some r => if r.id ≠ creatorId then some r.id else creatorReferredBy
    | none => creatorReferredBy
  else creatorReferredBy

/-- `referrerId ? parseFloat((commissionUsd * REFERRAL_COMMISSION_RATE).toFixed(6)) : 0`
with `REFERRAL_COMMISSION_RATE = 0.15`, shared by both create paths. -/
def referralCommissionOf (commission : Money) (referrerId : Option String) : Money :=
  if optTruthy referrerId then round6 (commission * (15 / 100)) else 0

/-- Request body of `POST /escrow/create` (absent `description` and
`counterparty_agent_id` behave as the empty string, which fails the same
validations as in the source). -/
structure CreateBody where
  amount_usd : Money
  description : String
  counterparty_agent_id : String
  timeout_hours : Option ℚ
  referral_code : Option String
deriving DecidableEq, Repr

/-- Fields of the success response of the create paths that the proofs use. -/
structure CreateOk where
  escrow_id : String
  commission_usd : Money
  net_to_counterparty : Money
  timeout_hours : ℤ
deriving DecidableEq, Repr

/-- The `POST /escrow/create` handler (`index.ts`), after authentication
resolved `creatorId`.  `freshId` is the generated `esc_xxx` id and `now` the
current unix time.  Validations run in source order; `COMMISSION_RATE = 0.01`
and `MIN_AMOUNT = 0.10` (the source's `!amountUsd` falsiness test is subsumed
by `amount < 1/10` over rationals).  On a create-record failure after a
successful debit, the debit is compensated by an equal credit. -/
def escrowCreate (es : EscrowState) (ca : Casino) (creatorId : String)
    (body : CreateBody) (freshId : String) (now : ℤ) :
    Except ApiError CreateOk × EscrowState × Casino :=
  if body.amount_usd < 1 / 10 then (Except.error ApiError.invalid_amount, es, ca)
  else if (jsTrim body.description).length < 3 then
    (Except.error ApiError.invalid_description, es, ca)
  else if strBeginsWith (jsTrim body.counterparty_agent_id) "ag_" = false then
    (Except.error ApiError.invalid_counterparty, es, ca)
  else if (jsTrim body.counterparty_agent_id) = creatorId then
    (Except.error ApiError.self_escrow, es, ca)
  else
    match getCasinoAgent ca (jsTrim body.counterparty_agent_id) with
    | none => (Except.error ApiError.counterparty_not_found, es, ca)
    | some _ =>
      match getCasinoAgent ca creatorId with
      | none => (Except.error ApiError.creator_not_found, es, ca)
      | some creator =>
        if creator.balance_usd < body.amount_usd then
          (Except.error ApiError.insufficient_balance, es, ca)
        else
          match debitCasinoBalance ca creatorId body.amount_usd
              ("escrow_lock: " ++ freshId) freshId with
          | (ca1, debited) =>
            if debited = false then (Except.error ApiError.debit_failed, es, ca1)
            else
              match createEscrow es
                  ⟨freshId, creatorId, (jsTrim body.counterparty_agent_id), body.amount_usd,
                   round6 (body.amount_usd * (1 / 100)), (jsTrim body.description),
                   clampTimeoutHours body.timeout_hours,
                   resolveReferrerHttp ca creatorId creator.referred_by body.referral_code,
                   referralCommissionOf (round6 (body.amount_usd * (1 / 100)))
                     (resolveReferrerHttp ca creatorId creator.referred_by
                       body.referral_code)⟩ now with
              | none =>
                match creditCasinoBalance ca1 creatorId body.amount_usd
                    ("escrow_create_failed_refund: " ++ freshId) (freshId ++ "_refund") with
                | some ca2 => (Except.error ApiError.internal_error, es, ca2)
                | none => (Except.error ApiError.internal_error, es, ca1)
              | some es1 =>
                (Except.ok ⟨freshId, round6 (body.amount_usd * (1 / 100)),
                  round6 (body.amount_usd - round6 (body.amount_usd * (1 / 100))),
                  clampTimeoutHours body.timeout_hours⟩, es1, ca1)

/-- The `POST /escrow/complete/:id` handler (`index.ts`): only the
counterparty, only from `funded`. -/
def escrowComplete (es : EscrowState) (actorId escrowId : String) (now : ℤ) :
    Except ApiError Unit × EscrowState :=
  match getEscrow es escrowId with
  | none => (Except.error ApiError.not_found, es)
  | some e =>
    if e.counterparty_id ≠ actorId then (Except.error ApiError.forbidden, es)
    else if e.status ≠ Status.funded then (Except.error ApiError.invalid_status, es)
    else (Except.ok (), markCompleted es escrowId actorId now)

/-- The `POST /escrow/release/:id` handler (`index.ts`): only the creator,
only from `funded` or `completed`.  Credits the counterparty
`round6(amount - commission)`, credits the referrer its referral commission
when `referrer_id` is truthy and the commission positive, then calls
`releaseEscrow`.  A thrown credit is caught and reported as
`release_failed`, keeping whatever committed before the throw. -/
def escrowRelease (es : EscrowState) (ca : Casino) (actorId escrowId : String)
    (now : ℤ) : Except ApiError Money × EscrowState × Casino :=
  match getEscrow es escrowId with
  | none => (Except.error ApiError.not_found, es, ca)
  | some e =>
    if e.creator_id ≠ actorId then (Except.error ApiError.forbidden, es, ca)
    else if ¬ (e.status = Status.funded ∨ e.status = Status.completed) then
      (Except.error ApiError.invalid_status, es, ca)
    else
      match creditCasinoBalance ca e.counterparty_id
          (round6 (e.amount_usd - e.commission_usd))
          ("escrow_release: " ++ escrowId) (escrowId ++ "_release") with
      | none => (Except.error ApiError.release_failed, es, ca)
      | some ca1 =>
        match e.referrer_id with
        | some r =>
          if r ≠ "" ∧ 0 < e.referral_commission_usd then
            match creditCasinoBalance ca1 r e.referral_commission_usd
                ("escrow_referral_commission: " ++ escrowId) (escrowId ++ "_refcom") with
            | none => (Except.error ApiError.release_failed, es, ca1)
            | some ca2 =>
              (Except.ok (round6 (e.amount_usd - e.commission_usd)),
               releaseEscrow es escrowId (some actorId)
                 ("Released by creator " ++ actorId) now, ca2)
          else
            (Except.ok (round6 (e.amount_usd - e.commission_usd)),
             releaseEscrow es escrowId (some actorId)
               ("Released by creator " ++ actorId) now, ca1)
        | none =>
          (Except.ok (round6 (e.amount_usd - e.commission_usd)),
           releaseEscrow es escrowId (some actorId)
             ("Released by creator " ++ actorId) now, ca1)

/-- The `POST /escrow/dispute/:id` handler (`index.ts`): either participant,
only from `funded` or `completed`; no funds move. -/
def escrowDispute (es : EscrowState) (actorId escrowId reason : String) (now : ℤ) :
    Except ApiError Unit × EscrowState :=
  match getEscrow es escrowId with
  | none => (Except.error ApiError.not_found, es)
  | some e =>
    if e.creator_id ≠ actorId ∧ e.counterparty_id ≠ actorId then
      (Except.error ApiError.forbidden, es)
    else if ¬ (e.status = Status.funded ∨ e.status = Status.completed) then
      (Except.error ApiError.invalid_status, es)
    else (Except.ok (), disputeEscrow es escrowId actorId reason now)

/-- The MCP `create_escrow` tool handler (`mcp.ts`), after the zod schema
accepted the call (`amount_usd ≥ 0.10`, `description.length ≥ 3` are enforced
by zod, not re-checked here) and `resolveAgentId` resolved `creatorId`.
Unlike the HTTP route it does not trim inputs and it resolves the referrer via
`resolveReferrerMcp`. -/
def mcpCreateEscrow (es : EscrowState) (ca : Casino) (creatorId : String)
    (amount_usd : Money) (counterparty_agent_id description : String)
    (timeout_hours : Option ℚ) (referral_code : Option String)
    (freshId : String) (now : ℤ) :
    Except ApiError CreateOk × EscrowState × Casino :=
  if strBeginsWith counterparty_agent_id "ag_" = false then
    (Except.error ApiError.invalid_counterparty, es, ca)
  else if counterparty_agent_id = creatorId then (Except.error ApiError.self_escrow, es, ca)
  else
    match getCasinoAgent ca counterparty_agent_id with
    | none => (Except.error ApiError.counterparty_not_found, es, ca)
    | some _ =>
      match getCasinoAgent ca creatorId with
      | none => (Except.error ApiError.creator_not_found, es, ca)
      | some creator =>
        if creator.balance_usd < amount_usd then
          (Except.error ApiError.insufficient_balance, es, ca)
        else
          match debitCasinoBalance ca creatorId amount_usd
              ("escrow_lock: " ++ freshId) freshId with
          | (ca1, debited) =>
            if debited = false then (Except.error ApiError.debit_failed, es, ca1)
            else
              match createEscrow es
                  ⟨freshId, creatorId, counterparty_agent_id, amount_usd,
                   round6 (amount_usd * (1 / 100)), description,
                   clampTimeoutHours timeout_hours,
                   resolveReferrerMcp ca creatorId creator.referred_by referral_code,
                   referralCommissionOf (round6 (amount_usd * (1 / 100)))
                     (resolveReferrerMcp ca creatorId creator.referred_by
                       referral_code)⟩ now with
              | none =>
                match creditCasinoBalance ca1 creatorId amount_usd
                    ("escrow_create_failed_refund: " ++ freshId) (freshId ++ "_refund") with
                | some ca2 => (Except.error ApiError.internal_error, es, ca2)
                | none => (Except.error ApiError.internal_error, es, ca1)
              | some es1 =>
                (Except.ok ⟨freshId, round6 (amount_usd * (1 / 100)),
                  round6 (amount_usd - round6 (amount_usd * (1 / 100))),
                  clampTimeoutHours timeout_hours⟩, es1, ca1)

/-- The MCP `mark_complete` tool handler (`mcp.ts`): same guards and store
effect as the HTTP complete route. -/
def mcpMarkComplete (es : EscrowState) (actorId escrowId : String) (now : ℤ) :
    Except ApiError Unit × EscrowState :=
  match getEscrow es escrowId with
  | none => (Except.error ApiError.not_found, es)
  | some e =>
    if e.counterparty_id ≠ actorId then (Except.error ApiError.forbidden, es)
    else if e.status ≠ Status.funded then (Except.error ApiError.invalid_status, es)
    else (Except.ok (), markCompleted es escrowId actorId now)

/-- The MCP `release_escrow` tool handler (`mcp.ts`): same guards as the HTTP
release route, but it performs NO balance credits — it only calls the
`releaseEscrow` store helper with the note `mcp_release`. -/
def mcpReleaseEscrow (es : EscrowState) (actorId escrowId : String) (now : ℤ) :
    Except ApiError Unit × EscrowState :=
  match getEscrow es escrowId with
  | none => (Except.error ApiError.not_found, es)
  | some e =>
    if e.creator_id ≠ actorId then (Except.error ApiError.forbidden, es)
    else if ¬ (e.status = Status.funded ∨ e.status = Status.completed) then
      (Except.error ApiError.invalid_status, es)
    else (Except.ok (), releaseEscrow es escrowId (some actorId) "mcp_release" now)

/-- The MCP `dispute_escrow` tool handler (`mcp.ts`): same guards and store
effect as the HTTP dispute route (zod additionally requires
`reason.length ≥ 10`, recorded as a hypothesis of the system step). -/
def mcpDisputeEscrow (es : EscrowState) (actorId escrowId reason : String) (now : ℤ) :
    Except ApiError Unit × EscrowState :=
  match getEscrow es escrowId with
  | none => (Except.error ApiError.not_found, es)
  | some e =>
    if e.creator_id ≠ actorId ∧ e.counterparty_id ≠ actorId then
      (Except.error ApiError.forbidden, es)
    else if ¬ (e.status = Status.funded ∨ e.status = Status.completed) then
      (Except.error ApiError.invalid_status, es)
    else (Except.ok (), disputeEscrow es escrowId actorId reason now)

/-- One mutating operation of the system: an HTTP route handler, an MCP
transactional tool, or one run of the auto-release sweeper. -/
inductive Step : EscrowState × Casino → EscrowState × Casino → Prop
  | httpCreate (es : EscrowState) (ca : Casino) (creatorId : String) (body : CreateBody)
      (freshId : String) (now : ℤ) (r : Except ApiError CreateOk)
      (es' : EscrowState) (ca' : Casino)
      (h : escrowCreate es ca creatorId body freshId now = (r, es', ca')) :
      Step (es, ca) (es', ca')
  | mcpCreate (es : EscrowState) (ca : Casino) (creatorId : String) (amount_usd : Money)
      (counterparty_agent_id description : String) (timeout_hours : Option ℚ)
      (referral_code : Option String) (freshId : String) (now : ℤ)
      (r : Except ApiError CreateOk) (es' : EscrowState) (ca' : Casino)
      (hAmt : 1 / 10 ≤ amount_usd) (hDesc : 3 ≤ description.length)
      (h : mcpCreateEscrow es ca creatorId amount_usd counterparty_agent_id description
        timeout_hours referral_code freshId now = (r, es', ca')) :
      Step (es, ca) (es', ca')
  | httpComplete (es : EscrowState) (ca : Casino) (actorId escrowId : String) (now : ℤ)
      (r : Except ApiError Unit) (es' : EscrowState)
      (h : escrowComplete es actorId escrowId now = (r, es')) :
      Step (es, ca) (es', ca)
  | httpRelease (es : EscrowState) (ca : Casino) (actorId escrowId : String) (now : ℤ)
      (r : Except ApiError Money) (es' : EscrowState) (ca' : Casino)
      (h : escrowRelease es ca actorId escrowId now = (r, es', ca')) :
      Step (es, ca) (es', ca')
  | httpDispute (es : EscrowState) (ca : Casino) (actorId escrowId reason : String)
      (now : ℤ) (r : Except ApiError Unit) (es' : EscrowState)
      (h : escrowDispute es actorId escrowId reason now = (r, es')) :
      Step (es, ca) (es', ca)
  | mcpComplete (es : EscrowState) (ca : Casino) (actorId escrowId : String) (now : ℤ)
      (r : Except ApiError Unit) (es' : EscrowState)
      (h : mcpMarkComplete es actorId escrowId now = (r, es')) :
      Step (es, ca) (es', ca)
  | mcpRelease (es : EscrowState) (ca : Casino) (actorId escrowId : String) (now : ℤ)
      (r : Except ApiError Unit) (es' : EscrowState)
      (h : mcpReleaseEscrow es actorId escrowId now = (r, es')) :
      Step (es, ca) (es', ca)
  | mcpDispute (es : EscrowState) (ca : Casino) (actorId escrowId reason : String)
      (now : ℤ) (r : Except ApiError Unit) (es' : EscrowState)
      (hReason : 10 ≤ reason.length)
      (h : mcpDisputeEscrow es actorId escrowId reason now = (r, es')) :
      Step (es, ca) (es', ca)
  | sweep (es : EscrowState) (ca : Casino) (now : ℤ) (es' : EscrowState) (ca' : Casino)
      (h : processAutoReleases es ca now = (es', ca')) :
      Step (es, ca) (es', ca')

/-- The escrow store a fresh deployment starts from: empty tables and a
zeroed stats row (the schema inserts the stats row with all counters 0). -/
def initialEscrowState : EscrowState :=
  { escrows := [], events := [], stats := ⟨0, 0, 0, 0, 0⟩ }

/-- System states reachable from a fresh escrow store (the casino database is
arbitrary, since it is owned by an external collaborator). -/
inductive Reachable : EscrowState × Casino → Prop
  | init (ca : Casino) : Reachable (initialEscrowState, ca)
  | step {s t : EscrowState × Casino} (hs : Reachable s) (h : Step s t) : Reachable t

/-! ## Generic list lemmas -/

theorem find?_map_pres {α : Type _} (f : α → α) (p : α → Bool)
    (hp : ∀ a, p (f a) = p a) :
    ∀ l : List α, (l.map f).find? p = (l.find? p).map f := by
  intro l
  induction l with
  | nil => rfl
  | cons a t ih =>
    rw [List.map_cons]
    cases h : p a with
    | true =>
      rw [List.find?_cons_of_pos _ (by rw [hp]; exact h), List.find?_cons_of_pos _ h]
      rfl
    | false =>
      rw [List.find?_cons_of_neg _ (by simp [hp, h]), List.find?_cons_of_neg _ (by simp [h])]
      exact ih

theorem foldl_preserve {σ α : Type _} (f : σ → α → σ) (P : σ → Prop) :
    ∀ l : List α, (∀ s a, a ∈ l → P s → P (f s a)) → ∀ s, P s → P (l.foldl f s) := by
  intro l
  induction l with
  | nil => intro _ s hs; exact hs
  | cons a t ih =>
    intro h s hs
    exact ih (fun s' b hb => h s' b (List.mem_cons_of_mem _ hb)) (f s a)
      (h s a (List.mem_cons_self a t) hs)

/-! ## `getEscrow` through the store operations -/

theorem getEscrow_some_id {s : EscrowState} {x : String} {e : Escrow}
    (h : getEscrow s x = some e) : e.id = x := by
  have := List.find?_some h
  simpa using this

theorem getEscrow_mem {s : EscrowState} {x : String} {e : Escrow}
    (h : getEscrow s x = some e) : e ∈ s.escrows :=
  List.mem_of_find?_eq_some h

theorem getEscrow_eq_of_mem_nodup {s : EscrowState} {e : Escrow}
    (hm : e ∈ s.escrows) (hnd : (s.escrows.map Escrow.id).Nodup) :
    getEscrow s e.id = some e := by
  unfold getEscrow
  cases hf : s.escrows.find? (fun x => x.id == e.id) with
  | none =>
    exfalso
    have := List.find?_eq_none.1 hf e hm
    simp at this
  | some x =>
    have hx : x.id = e.id := by simpa using List.find?_some hf
    have hxm : x ∈ s.escrows := List.mem_of_find?_eq_some hf
    have := List.inj_on_of_nodup_map hnd hxm hm hx
    rw [this]

theorem getEscrow_markCompleted (s : EscrowState) (id cp : String) (now : ℤ) (x : String) :
    getEscrow (markCompleted s id cp now) x =
      (getEscrow s x).map (fun e =>
        if e.id = id ∧ e.status = Status.funded then
          { e with status := Status.completed, completed_at := some now }
        else e) :=
  find?_map_pres _ _ (fun e => by split <;> rfl) _

theorem getEscrow_releaseEscrow (s : EscrowState) (id : String) (a : Option String)
    (note : String) (now : ℤ) (x : String) :
    getEscrow (releaseEscrow s id a note now) x =
      (getEscrow s x).map (fun e =>
        if e.id = id ∧ (e.status = Status.funded ∨ e.status = Status.completed) then
          { e with status := Status.released, released_at := some now }
        else e) :=
  find?_map_pres _ _ (fun e => by split <;> rfl) _

theorem getEscrow_disputeEscrow (s : EscrowState) (id actor reason : String) (now : ℤ)
    (x : String) :
    getEscrow (disputeEscrow s id actor reason now) x =
      (getEscrow s x).map (fun e =>
        if e.id = id ∧ (e.status = Status.funded ∨ e.status = Status.completed) then
          { e with status := Status.disputed, disputed_at := some now }
        else e) :=
  find?_map_pres _ _ (fun e => by split <;> rfl) _

theorem getEscrow_refundEscrow (s : EscrowState) (id note : String) (now : ℤ) (x : String) :
    getEscrow (refundEscrow s id note now) x =
      (getEscrow s x).map (fun e =>
        if e.id = id then { e with status := Status.refunded, released_at := some now }
        else e) :=
  find?_map_pres _ _ (fun e => by split <;> rfl) _

theorem getEscrow_refundEscrow_ne {s : EscrowState} {id : String} (note : String)
    (now : ℤ) {x : String} (hx : x ≠ id) :
    getEscrow (refundEscrow s id note now) x = getEscrow s x := by
  rw [getEscrow_refundEscrow]
  cases h : getEscrow s x with
  | none => rfl
  | some e =>
    have hid : e.id = x := getEscrow_some_id h
    simp only [Option.map_some']
    rw [if_neg (by rw [hid]; exact hx)]

/-! ## Escrow row lists and ids through the store operations -/

theorem ids_markCompleted (s : EscrowState) (id cp : String) (now : ℤ) :
    (markCompleted s id cp now).escrows.map Escrow.id = s.escrows.map Escrow.id := by
  show (s.escrows.map _).map Escrow.id = _
  rw [List.map_map]
  exact List.map_congr_left (fun e _ => by
    simp only [Function.comp_apply]; split <;> rfl)

theorem ids_releaseEscrow (s : EscrowState) (id : String) (a : Option String)
    (note : String) (now : ℤ) :
    (releaseEscrow s id a note now).escrows.map Escrow.id = s.escrows.map Escrow.id := by
  show (s.escrows.map _).map Escrow.id = _
  rw [List.map_map]
  exact List.map_congr_left (fun e _ => by
    simp only [Function.comp_apply]; split <;> rfl)

theorem ids_disputeEscrow (s : EscrowState) (id actor reason : String) (now : ℤ) :
    (disputeEscrow s id actor reason now).escrows.map Escrow.id = s.escrows.map Escrow.id := by
  show (s.escrows.map _).map Escrow.id = _
  rw [List.map_map]
  exact List.map_congr_left (fun e _ => by
    simp only [Function.comp_apply]; split <;> rfl)

theorem ids_refundEscrow (s : EscrowState) (id note : String) (now : ℤ) :
    (refundEscrow s id note now).escrows.map Escrow.id = s.escrows.map Escrow.id := by
  show (s.escrows.map _).map Escrow.id = _
  rw [List.map_map]
  exact List.map_congr_left (fun e _ => by
    simp only [Function.comp_apply]; split <;> rfl)

/-! ## Casino ledger lemmas -/

theorem find?_creditMap (aid : String) (amt : Money) (ags : List CasinoAgent) (x : String) :
    (creditMap aid amt ags).find? (fun a => a.id == x) =
      (ags.find? (fun a => a.id == x)).map (fun a =>
        if a.id = aid then { a with balance_usd := a.balance_usd + amt } else a) :=
  find?_map_pres _ _ (fun a => by by_cases h : a.id = aid <;> simp [h]) ags

theorem find?_debitMap (aid : String) (amt : Money) (ags : List CasinoAgent) (x : String) :
    (debitMap aid amt ags).find? (fun a => a.id == x) =
      (ags.find? (fun a => a.id == x)).map (fun a =>
        if a.id = aid then { a with balance_usd := a.balance_usd - amt } else a) :=
  find?_map_pres _ _ (fun a => by by_cases h : a.id = aid <;> simp [h]) ags

theorem getCasinoAgent_credit {ca : Casino} {aid : String} {amt : Money}
    {reason ref : String} {ca' : Casino}
    (h : creditCasinoBalance ca aid amt reason ref = some ca') (x : String) :
    getCasinoAgent ca' x = (getCasinoAgent ca x).map (fun a =>
      if a.id = aid then { a with balance_usd := a.balance_usd + amt } else a) := by
  unfold creditCasinoBalance at h
  cases hf : (creditMap aid amt ca.agents).find? (fun a => a.id == aid) with
  | none => rw [hf] at h; exact Option.noConfusion h
  | some a =>
    simp only [hf, Option.some.injEq] at h
    subst h
    exact find?_creditMap aid amt ca.agents x

theorem credit_isSome {ca : Casino} {aid : String} {amt : Money} {reason ref : String}
    {a : CasinoAgent} (h : getCasinoAgent ca aid = some a) :
    ∃ ca', creditCasinoBalance ca aid amt reason ref = some ca' := by
  unfold creditCasinoBalance
  have hf := find?_creditMap aid amt ca.agents aid
  rw [show ca.agents.find? (fun a => a.id == aid) = some a from h] at hf
  rw [hf]
  exact ⟨_, rfl⟩

theorem credit_none {ca : Casino} {aid : String} {amt : Money} {reason ref : String}
    (h : creditCasinoBalance ca aid amt reason ref = none) :
    getCasinoAgent ca aid = none := by
  unfold creditCasinoBalance at h
  have hf := find?_creditMap aid amt ca.agents aid
  cases hg : getCasinoAgent ca aid with
  | none => rfl
  | some a =>
    rw [show ca.agents.find? (fun a => a.id == aid) = some a from hg] at hf
    rw [hf] at h
    simp at h

theorem balanceOf_credit_self {ca : Casino} {aid : String} {amt : Money}
    {reason ref : String} {ca' : Casino} {a : CasinoAgent}
    (h : creditCasinoBalance ca aid amt reason ref = some ca')
    (ha : getCasinoAgent ca aid = some a) :
    balanceOf ca' aid = some (a.balance_usd + amt) := by
  unfold balanceOf
  rw [getCasinoAgent_credit h, ha]
  have hid : a.id = aid := by simpa using List.find?_some ha
  simp only [Option.map_some']
  rw [if_pos hid]

theorem getCasinoAgent_credit_other {ca : Casino} {aid : String} {amt : Money}
    {reason ref : String} {ca' : Casino}
    (h : creditCasinoBalance ca aid amt reason ref = some ca') {x : String} (hx : x ≠ aid) :
    getCasinoAgent ca' x = getCasinoAgent ca x := by
  rw [getCasinoAgent_credit h]
  cases hf : getCasinoAgent ca x with
  | none => rfl
  | some a =>
    have hid : a.id = x := by simpa using List.find?_some hf
    simp only [Option.map_some']
    rw [if_neg (by rw [hid]; exact hx)]

theorem debit_success {ca : Casino} {aid : String} {amt : Money} {reason ref : String}
    {a : CasinoAgent} (h : getCasinoAgent ca aid = some a) (hb : ¬ a.balance_usd < amt) :
    debitCasinoBalance ca aid amt reason ref =
      ({ agents := debitMap aid amt ca.agents,
         ledger := ca.ledger ++
           [⟨ref ++ "_debit", aid, "debit", amt, a.balance_usd - amt, reason, ref⟩] },
       true) := by
  unfold debitCasinoBalance
  rw [h]
  simp only [hb, if_false]

theorem getCasinoAgent_debitMap (ca : Casino) (aid : String) (amt : Money)
    {ca' : Casino} (hca' : ca'.agents = debitMap aid amt ca.agents) (x : String) :
    getCasinoAgent ca' x = (getCasinoAgent ca x).map (fun a =>
      if a.id = aid then { a with balance_usd := a.balance_usd - amt } else a) := by
  unfold getCasinoAgent
  rw [hca']
  exact find?_debitMap aid amt ca.agents x

theorem balanceOf_debitMap_other {ca : Casino} {aid : String} {amt : Money}
    {ca' : Casino} (hca' : ca'.agents = debitMap aid amt ca.agents)
    {x : String} (hx : x ≠ aid) :
    getCasinoAgent ca' x = getCasinoAgent ca x := by
  rw [getCasinoAgent_debitMap ca aid amt hca']
  cases hf : getCasinoAgent ca x with
  | none => rfl
  | some a =>
    have hid : a.id = x := by simpa using List.find?_some hf
    simp only [Option.map_some']
    rw [if_neg (by rw [hid]; exact hx)]

/-! ## Arithmetic facts about `round6` -/

theorem round_le_add_half (x : ℚ) : (round x : ℚ) ≤ x + 1 / 2 := by
  rw [round_eq]
  exact_mod_cast Int.floor_le (x + 1 / 2)

theorem sub_half_le_round (x : ℚ) : x - 1 / 2 ≤ (round x : ℚ) := by
  rw [round_eq]
  have h := Int.lt_floor_add_one (x + 1 / 2)
  have h2 : ((⌊x + 1 / 2⌋ : ℤ) : ℚ) + 1 > x + 1 / 2 := by exact_mod_cast h
  linarith

theorem round6_le (x : ℚ) : round6 x ≤ x + 1 / 2000000 := by
  unfold round6
  have h := round_le_add_half (x * 1000000)
  have h2 : ((round (x * 1000000) : ℤ) : ℚ) / 1000000 ≤ (x * 1000000 + 1 / 2) / 1000000 :=
    (div_le_div_right (by norm_num)).mpr h
  have h3 : (x * 1000000 + 1 / 2) / 1000000 = x + 1 / 2000000 := by ring
  rw [h3] at h2
  exact h2

theorem le_round6 (x : ℚ) : x - 1 / 2000000 ≤ round6 x := by
  unfold round6
  have h := sub_half_le_round (x * 1000000)
  have h2 : (x * 1000000 - 1 / 2) / 1000000 ≤ ((round (x * 1000000) : ℤ) : ℚ) / 1000000 :=
    (div_le_div_right (by norm_num)).mpr h
  have h3 : (x * 1000000 - 1 / 2) / 1000000 = x - 1 / 2000000 := by ring
  rw [h3] at h2
  exact h2

theorem round6_nonneg {x : ℚ} (hx : 0 ≤ x) : 0 ≤ round6 x := by
  unfold round6
  have h : (0 : ℤ) ≤ round (x * 1000000) := by
    rw [round_eq]
    apply Int.le_floor.mpr
    push_cast
    linarith
  have h2 : (0 : ℚ) ≤ ((round (x * 1000000) : ℤ) : ℚ) := by exact_mod_cast h
  linarith [div_nonneg h2 (by norm_num : (0:ℚ) ≤ 1000000)]

theorem commission_le_amount {a : ℚ} (ha : 1 / 10 ≤ a) : round6 (a * (1 / 100)) ≤ a := by
  have h := round6_le (a * (1 / 100))
  linarith

theorem commission_lb {a : ℚ} (ha : 1 / 10 ≤ a) : 1 / 2000 ≤ round6 (a * (1 / 100)) := by
  have h := le_round6 (a * (1 / 100))
  linarith

theorem refcomm_le_commission {c : ℚ} (hc : 1 / 2000 ≤ c) : round6 (c * (15 / 100)) ≤ c := by
  have h := round6_le (c * (15 / 100))
  linarith

theorem refcomm_nonneg {c : ℚ} (hc : 0 ≤ c) : 0 ≤ round6 (c * (15 / 100)) := by
  exact round6_nonneg (by nlinarith)

/-! ## System invariants -/

/-- Money fields every stored escrow satisfies: the commission is the rounded
1% of the amount, the referral commission is zero or the rounded 15% of the
commission, and the amount meets the minimum. -/
def GoodMoney (e : Escrow) : Prop :=
  e.commission_usd = round6 (e.amount_usd * (1 / 100)) ∧
  (e.referral_commission_usd = 0 ∨
    e.referral_commission_usd = round6 (e.commission_usd * (15 / 100))) ∧
  1 / 10 ≤ e.amount_usd

/-- All stored escrows have well-formed money fields. -/
def MoneyInv (s : EscrowState) : Prop := ∀ e ∈ s.escrows, GoodMoney e

/-- Timestamps of statuses that still allow transitions are unset. -/
def TsInv (s : EscrowState) : Prop := ∀ e ∈ s.escrows,
  (e.status = Status.funded →
    e.completed_at = none ∧ e.released_at = none ∧ e.disputed_at = none) ∧
  (e.status = Status.completed → e.released_at = none ∧ e.disputed_at = none)

/-- Escrow ids are pairwise distinct (the `id` column is the primary key). -/
def IdsNodup (s : EscrowState) : Prop := (s.escrows.map Escrow.id).Nodup

/-- The inductive invariant of the escrow store. -/
def Inv (s : EscrowState) : Prop := IdsNodup s ∧ TsInv s ∧ MoneyInv s

theorem inv_markCompleted (s : EscrowState) (id cp : String) (now : ℤ)
    (h : Inv s) : Inv (markCompleted s id cp now) := by
  obtain ⟨hn, ht, hm⟩ := h
  refine ⟨?_, ?_, ?_⟩
  · unfold IdsNodup
    rw [ids_markCompleted]
    exact hn
  · intro e' he'
    obtain ⟨e, he, rfl⟩ := List.mem_map.1 he'
    by_cases hc : e.id = id ∧ e.status = Status.funded
    · rw [if_pos hc]
      refine ⟨fun hf => Status.noConfusion hf, fun _ => ?_⟩
      have h0 := (ht e he).1 hc.2
      exact ⟨h0.2.1, h0.2.2⟩
    · rw [if_neg hc]
      exact ht e he
  · intro e' he'
    obtain ⟨e, he, rfl⟩ := List.mem_map.1 he'
    by_cases hc : e.id = id ∧ e.status = Status.funded
    · rw [if_pos hc]
      exact hm e he
    · rw [if_neg hc]
      exact hm e he

theorem inv_releaseEscrow (s : EscrowState) (id : String) (a : Option String)
    (note : String) (now : ℤ) (h : Inv s) : Inv (releaseEscrow s id a note now) := by
  obtain ⟨hn, ht, hm⟩ := h
  refine ⟨?_, ?_, ?_⟩
  · unfold IdsNodup
    rw [ids_releaseEscrow]
    exact hn
  · intro e' he'
    obtain ⟨e, he, rfl⟩ := List.mem_map.1 he'
    by_cases hc : e.id = id ∧ (e.status = Status.funded ∨ e.status = Status.completed)
    · rw [if_pos hc]
      exact ⟨fun hf => Status.noConfusion hf, fun hf => Status.noConfusion hf⟩
    · rw [if_neg hc]
      exact ht e he
  · intro e' he'
    obtain ⟨e, he, rfl⟩ := List.mem_map.1 he'
    by_cases hc : e.id = id ∧ (e.status = Status.funded ∨ e.status = Status.completed)
    · rw [if_pos hc]
      exact hm e he
    · rw [if_neg hc]
      exact hm e he

theorem inv_disputeEscrow (s : EscrowState) (id actor reason : String) (now : ℤ)
    (h : Inv s) : Inv (disputeEscrow s id actor reason now) := by
  obtain ⟨hn, ht, hm⟩ := h
  refine ⟨?_, ?_, ?_⟩
  · unfold IdsNodup
    rw [ids_disputeEscrow]
    exact hn
  · intro e' he'
    obtain ⟨e, he, rfl⟩ := List.mem_map.1 he'
    by_cases hc : e.id = id ∧ (e.status = Status.funded ∨ e.status = Status.completed)
    · rw [if_pos hc]
      exact ⟨fun hf => Status.noConfusion hf, fun hf => Status.noConfusion hf⟩
    · rw [if_neg hc]
      exact ht e he
  · intro e' he'
    obtain ⟨e, he, rfl⟩ := List.mem_map.1 he'
    by_cases hc : e.id = id ∧ (e.status = Status.funded ∨ e.status = Status.completed)
    · rw [if_pos hc]
      exact hm e he
    · rw [if_neg hc]
      exact hm e he

theorem inv_refundEscrow (s : EscrowState) (id note : String) (now : ℤ)
    (h : Inv s) : Inv (refundEscrow s id note now) := by
  obtain ⟨hn, ht, hm⟩ := h
  refine ⟨?_, ?_, ?_⟩
  · unfold IdsNodup
    rw [ids_refundEscrow]
    exact hn
  · intro e' he'
    obtain ⟨e, he, rfl⟩ := List.mem_map.1 he'
    by_cases hc : e.id = id
    · rw [if_pos hc]
      exact ⟨fun hf => Status.noConfusion hf, fun hf => Status.noConfusion hf⟩
    · rw [if_neg hc]
      exact ht e he
  · intro e' he'
    obtain ⟨e, he, rfl⟩ := List.mem_map.1 he'
    by_cases hc : e.id = id
    · rw [if_pos hc]
      exact hm e he
    · rw [if_neg hc]
      exact hm e he

theorem inv_createEscrow {s : EscrowState} {p : CreateParams} {now : ℤ} {s' : EscrowState}
    (h : createEscrow s p now = some s') (hinv : Inv s)
    (hp : p.commissionUsd = round6 (p.amountUsd * (1 / 100)))
    (hr : p.referralCommissionUsd = 0 ∨
      p.referralCommissionUsd = round6 (p.commissionUsd * (15 / 100)))
    (ha : 1 / 10 ≤ p.amountUsd) : Inv s' := by
  unfold createEscrow at h
  by_cases hex : s.escrows.any (fun e => e.id == p.id)
  · rw [if_pos hex] at h
    exact Option.noConfusion h
  · rw [if_neg hex] at h
    simp only [Option.some.injEq] at h
    subst h
    obtain ⟨hn, ht, hm⟩ := hinv
    refine ⟨?_, ?_, ?_⟩
    · unfold IdsNodup
      show (List.map Escrow.id (s.escrows ++ [_])).Nodup
      rw [List.map_append]
      rw [List.nodup_append]
      refine ⟨hn, List.nodup_singleton _, ?_⟩
      intro x hx hx1
      simp only [List.map_cons, List.map_nil, List.mem_singleton] at hx1
      subst hx1
      obtain ⟨e, he, hei⟩ := List.mem_map.1 hx
      exact hex (List.any_eq_true.2 ⟨e, he, by simp [hei]⟩)
    · intro e' he'
      rcases List.mem_append.1 he' with h1 | h2
      · exact ht e' h1
      · simp only [List.mem_singleton] at h2
        subst h2
        exact ⟨fun _ => ⟨rfl, rfl, rfl⟩, fun hcc => Status.noConfusion hcc⟩
    · intro e' he'
      rcases List.mem_append.1 he' with h1 | h2
      · exact hm e' h1
      · simp only [List.mem_singleton] at h2
        subst h2
        exact ⟨hp, hr, ha⟩

theorem autoRefundOne_fst (now : ℤ) (st : EscrowState × Casino) (e : Escrow) :
    (autoRefundOne now st e).1 = st.1 ∨
    (autoRefundOne now st e).1 =
      refundEscrow st.1 e.id "Auto-refunded after timeout" now := by
  unfold autoRefundOne
  cases h1 : creditCasinoBalance st.2 e.creator_id (e.amount_usd - e.commission_usd)
      ("escrow_timeout_refund: " ++ e.id) (e.id ++ "_timeout") with
  | none => exact Or.inl rfl
  | some ca1 =>
    dsimp only
    cases h2 : e.referrer_id with
    | none => exact Or.inr rfl
    | some r =>
      dsimp only
      by_cases h3 : r ≠ "" ∧ 0 < e.referral_commission_usd
      · rw [if_pos h3]
        cases h4 : creditCasinoBalance ca1 r e.referral_commission_usd
            ("escrow_referral_commission: " ++ e.id) (e.id ++ "_refcom") with
        | none => exact Or.inl rfl
        | some ca2 => exact Or.inr rfl
      · rw [if_neg h3]
        exact Or.inr rfl

theorem inv_processAutoReleases (es : EscrowState) (ca : Casino) (now : ℤ)
    (h : Inv es) : Inv (processAutoReleases es ca now).1 := by
  unfold processAutoReleases
  refine foldl_preserve _ (fun st => Inv st.1) _ (fun st e _ hst => ?_) (es, ca) h
  rcases autoRefundOne_fst now st e with h1 | h1 <;> rw [h1]
  · exact hst
  · exact inv_refundEscrow _ _ _ _ hst

/-! ## Shape of the handler results -/

theorem prod3_eq {A B C : Type _} {a a' : A} {b b' : B} {c c' : C}
    (h : (a, b, c) = (a', b', c')) : a = a' ∧ b = b' ∧ c = c' := by
  injection h with h1 h2
  injection h2 with h2 h3
  exact ⟨h1, h2, h3⟩

theorem prod2_eq {A B : Type _} {a a' : A} {b b' : B}
    (h : (a, b) = (a', b')) : a = a' ∧ b = b' := by
  injection h with h1 h2
  exact ⟨h1, h2⟩

theorem escrowComplete_shape {es : EscrowState} {actorId escrowId : String} {now : ℤ}
    {r : Except ApiError Unit} {es' : EscrowState}
    (h : escrowComplete es actorId escrowId now = (r, es')) :
    es' = es ∨ ∃ e, getEscrow es escrowId = some e ∧ e.status = Status.funded ∧
      e.counterparty_id = actorId ∧ es' = markCompleted es escrowId actorId now := by
  unfold escrowComplete at h
  cases hg : getEscrow es escrowId with
  | none =>
    rw [hg] at h
    dsimp only at h
    exact Or.inl (prod2_eq h).2.symm
  | some e =>
    rw [hg] at h
    dsimp only at h
    by_cases h1 : e.counterparty_id ≠ actorId
    · rw [if_pos h1] at h
      exact Or.inl (prod2_eq h).2.symm
    · rw [if_neg h1] at h
      by_cases h2 : e.status ≠ Status.funded
      · rw [if_pos h2] at h
        exact Or.inl (prod2_eq h).2.symm
      · rw [if_neg h2] at h
        exact Or.inr ⟨e, rfl, not_not.1 h2, not_not.1 h1, (prod2_eq h).2.symm⟩

theorem mcpMarkComplete_shape {es : EscrowState} {actorId escrowId : String} {now : ℤ}
    {r : Except ApiError Unit} {es' : EscrowState}
    (h : mcpMarkComplete es actorId escrowId now = (r, es')) :
    es' = es ∨ ∃ e, getEscrow es escrowId = some e ∧ e.status = Status.funded ∧
      e.counterparty_id = actorId ∧ es' = markCompleted es escrowId actorId now := by
  unfold mcpMarkComplete at h
  cases hg : getEscrow es escrowId with
  | none =>
    rw [hg] at h
    dsimp only at h
    exact Or.inl (prod2_eq h).2.symm
  | some e =>
    rw [hg] at h
    dsimp only at h
    by_cases h1 : e.counterparty_id ≠ actorId
    · rw [if_pos h1] at h
      exact Or.inl (prod2_eq h).2.symm
    · rw [if_neg h1] at h
      by_cases h2 : e.status ≠ Status.funded
      · rw [if_pos h2] at h
        exact Or.inl (prod2_eq h).2.symm
      · rw [if_neg h2] at h
        exact Or.inr ⟨e, rfl, not_not.1 h2, not_not.1 h1, (prod2_eq h).2.symm⟩

theorem escrowDispute_shape {es : EscrowState} {actorId escrowId reason : String}
    {now : ℤ} {r : Except ApiError Unit} {es' : EscrowState}
    (h : escrowDispute es actorId escrowId reason now = (r, es')) :
    es' = es ∨ ∃ e, getEscrow es escrowId = some e ∧
      (e.status = Status.funded ∨ e.status = Status.completed) ∧
      es' = disputeEscrow es escrowId actorId reason now := by
  unfold escrowDispute at h
  cases hg : getEscrow es escrowId with
  | none =>
    rw [hg] at h
    dsimp only at h
    exact Or.inl (prod2_eq h).2.symm
  | some e =>
    rw [hg] at h
    dsimp only at h
    by_cases h1 : e.creator_id ≠ actorId ∧ e.counterparty_id ≠ actorId
    · rw [if_pos h1] at h
      exact Or.inl (prod2_eq h).2.symm
    · rw [if_neg h1] at h
      by_cases h2 : ¬ (e.status = Status.funded ∨ e.status = Status.completed)
      · rw [if_pos h2] at h
        exact Or.inl (prod2_eq h).2.symm
      · rw [if_neg h2] at h
        exact Or.inr ⟨e, rfl, not_not.1 h2, (prod2_eq h).2.symm⟩

theorem mcpDisputeEscrow_shape {es : EscrowState} {actorId escrowId reason : String}
    {now : ℤ} {r : Except ApiError Unit} {es' : EscrowState}
    (h : mcpDisputeEscrow es actorId escrowId reason now = (r, es')) :
    es' = es ∨ ∃ e, getEscrow es escrowId = some e ∧
      (e.status = Status.funded ∨ e.status = Status.completed) ∧
      es' = disputeEscrow es escrowId actorId reason now := by
  unfold mcpDisputeEscrow at h
  cases hg : getEscrow es escrowId with
  | none =>
    rw [hg] at h
    dsimp only at h
    exact Or.inl (prod2_eq h).2.symm
  | some e =>
    rw [hg] at h
    dsimp only at h
    by_cases h1 : e.creator_id ≠ actorId ∧ e.counterparty_id ≠ actorId
    · rw [if_pos h1] at h
      exact Or.inl (prod2_eq h).2.symm
    · rw [if_neg h1] at h
      by_cases h2 : ¬ (e.status = Status.funded ∨ e.status = Status.completed)
      · rw [if_pos h2] at h
        exact Or.inl (prod2_eq h).2.symm
      · rw [if_neg h2] at h
        exact Or.inr ⟨e, rfl, not_not.1 h2, (prod2_eq h).2.symm⟩

theorem mcpReleaseEscrow_shape {es : EscrowState} {actorId escrowId : String}
    {now : ℤ} {r : Except ApiError Unit} {es' : EscrowState}
    (h : mcpReleaseEscrow es actorId escrowId now = (r, es')) :
    es' = es ∨ ∃ e, getEscrow es escrowId = some e ∧
      (e.status = Status.funded ∨ e.status = Status.completed) ∧
      es' = releaseEscrow es escrowId (some actorId) "mcp_release" now := by
  unfold mcpReleaseEscrow at h
  cases hg : getEscrow es escrowId with
  | none =>
    rw [hg] at h
    dsimp only at h
    exact Or.inl (prod2_eq h).2.symm
  | some e =>
    rw [hg] at h
    dsimp only at h
    by_cases h1 : e.creator_id ≠ actorId
    · rw [if_pos h1] at h
      exact Or.inl (prod2_eq h).2.symm
    · rw [if_neg h1] at h
      by_cases h2 : ¬ (e.status = Status.funded ∨ e.status = Status.completed)
      · rw [if_pos h2] at h
        exact Or.inl (prod2_eq h).2.symm
      · rw [if_neg h2] at h
        exact Or.inr ⟨e, rfl, not_not.1 h2, (prod2_eq h).2.symm⟩

theorem escrowRelease_shape {es : EscrowState} {ca : Casino} {actorId escrowId : String}
    {now : ℤ} {r : Except ApiError Money} {es' : EscrowState} {ca' : Casino}
    (h : escrowRelease es ca actorId escrowId now = (r, es', ca')) :
    es' = es ∨ ∃ e, getEscrow es escrowId = some e ∧
      (e.status = Status.funded ∨ e.status = Status.completed) ∧
      es' = releaseEscrow es escrowId (some actorId)
        ("Released by creator " ++ actorId) now := by
  unfold escrowRelease at h
  cases hg : getEscrow es escrowId with
  | none =>
    rw [hg] at h
    dsimp only at h
    exact Or.inl (prod3_eq h).2.1.symm
  | some e =>
    rw [hg] at h
    dsimp only at h
    by_cases h1 : e.creator_id ≠ actorId
    · rw [if_pos h1] at h
      exact Or.inl (prod3_eq h).2.1.symm
    · rw [if_neg h1] at h
      by_cases h2 : ¬ (e.status = Status.funded ∨ e.status = Status.completed)
      · rw [if_pos h2] at h
        exact Or.inl (prod3_eq h).2.1.symm
      · rw [if_neg h2] at h
        cases hc1 : creditCasinoBalance ca e.counterparty_id
            (round6 (e.amount_usd - e.commission_usd))
            ("escrow_release: " ++ escrowId) (escrowId ++ "_release") with
        | none =>
          rw [hc1] at h
          dsimp only at h
          exact Or.inl (prod3_eq h).2.1.symm
        | some ca1 =>
          rw [hc1] at h
          dsimp only at h
          cases hr : e.referrer_id with
          | none =>
            rw [hr] at h
            dsimp only at h
            exact Or.inr ⟨e, rfl, not_not.1 h2, (prod3_eq h).2.1.symm⟩
          | some rid =>
            rw [hr] at h
            dsimp only at h
            by_cases h3 : rid ≠ "" ∧ 0 < e.referral_commission_usd
            · rw [if_pos h3] at h
              cases hc2 : creditCasinoBalance ca1 rid e.referral_commission_usd
                  ("escrow_referral_commission: " ++ escrowId) (escrowId ++ "_refcom") with
              | none =>
                rw [hc2] at h
                dsimp only at h
                exact Or.inl (prod3_eq h).2.1.symm
              | some ca2 =>
                rw [hc2] at h
                dsimp only at h
                exact Or.inr ⟨e, rfl, not_not.1 h2, (prod3_eq h).2.1.symm⟩
            · rw [if_neg h3] at h
              exact Or.inr ⟨e, rfl, not_not.1 h2, (prod3_eq h).2.1.symm⟩

theorem escrowCreate_shape {es : EscrowState} {ca : Casino} {creatorId : String}
    {body : CreateBody} {freshId : String} {now : ℤ} {r : Except ApiError CreateOk}
    {es' : EscrowState} {ca' : Casino}
    (h : escrowCreate es ca creatorId body freshId now = (r, es', ca')) :
    es' = es ∨
    (1 / 10 ≤ body.amount_usd ∧ ∃ rid : Option String,
      createEscrow es
        ⟨freshId, creatorId, (jsTrim body.counterparty_agent_id), body.amount_usd,
         round6 (body.amount_usd * (1 / 100)), (jsTrim body.description),
         clampTimeoutHours body.timeout_hours, rid,
         referralCommissionOf (round6 (body.amount_usd * (1 / 100))) rid⟩ now
        = some es') := by
  unfold escrowCreate at h
  by_cases h1 : body.amount_usd < 1 / 10
  · rw [if_pos h1] at h
    exact Or.inl (prod3_eq h).2.1.symm
  · rw [if_neg h1] at h
    by_cases h2 : (jsTrim body.description).length < 3
    · rw [if_pos h2] at h
      exact Or.inl (prod3_eq h).2.1.symm
    · rw [if_neg h2] at h
      by_cases h3 : strBeginsWith (jsTrim body.counterparty_agent_id) "ag_" = false
      · rw [if_pos h3] at h
        exact Or.inl (prod3_eq h).2.1.symm
      · rw [if_neg h3] at h
        by_cases h4 : (jsTrim body.counterparty_agent_id) = creatorId
        · rw [if_pos h4] at h
          exact Or.inl (prod3_eq h).2.1.symm
        · rw [if_neg h4] at h
          cases hcp : getCasinoAgent ca (jsTrim body.counterparty_agent_id) with
          | none =>
            rw [hcp] at h
            dsimp only at h
            exact Or.inl (prod3_eq h).2.1.symm
          | some cp =>
            rw [hcp] at h
            dsimp only at h
            cases hcr : getCasinoAgent ca creatorId with
            | none =>
              rw [hcr] at h
              dsimp only at h
              exact Or.inl (prod3_eq h).2.1.symm
            | some creator =>
              rw [hcr] at h
              dsimp only at h
              by_cases h5 : creator.balance_usd < body.amount_usd
              · rw [if_pos h5] at h
                exact Or.inl (prod3_eq h).2.1.symm
              · rw [if_neg h5] at h
                cases hd : debitCasinoBalance ca creatorId body.amount_usd
                    ("escrow_lock: " ++ freshId) freshId with
                | mk ca1 debited =>
                  rw [hd] at h
                  dsimp only at h
                  by_cases h6 : debited = false
                  · rw [if_pos h6] at h
                    exact Or.inl (prod3_eq h).2.1.symm
                  · rw [if_neg h6] at h
                    cases hce : createEscrow es
                        ⟨freshId, creatorId, (jsTrim body.counterparty_agent_id),
                         body.amount_usd, round6 (body.amount_usd * (1 / 100)),
                         (jsTrim body.description), clampTimeoutHours body.timeout_hours,
                         resolveReferrerHttp ca creatorId creator.referred_by
                           body.referral_code,
                         referralCommissionOf (round6 (body.amount_usd * (1 / 100)))
                           (resolveReferrerHttp ca creatorId creator.referred_by
                             body.referral_code)⟩ now with
                    | none =>
                      rw [hce] at h
                      dsimp only at h
                      cases hcc : creditCasinoBalance ca1 creatorId body.amount_usd
                          ("escrow_create_failed_refund: " ++ freshId)
                          (freshId ++ "_refund") with
                      | none =>
                        rw [hcc] at h
                        dsimp only at h
                        exact Or.inl (prod3_eq h).2.1.symm
                      | some ca2 =>
                        rw [hcc] at h
                        dsimp only at h
                        exact Or.inl (prod3_eq h).2.1.symm
                    | some es1 =>
                      rw [hce] at h
                      dsimp only at h
                      rw [(prod3_eq h).2.1] at hce
                      exact Or.inr ⟨not_lt.1 h1, _, hce⟩

theorem mcpCreateEscrow_shape {es : EscrowState} {ca : Casino} {creatorId : String}
    {amount_usd : Money} {counterparty_agent_id description : String}
    {timeout_hours : Option ℚ} {referral_code : Option String} {freshId : String}
    {now : ℤ} {r : Except ApiError CreateOk} {es' : EscrowState} {ca' : Casino}
    (h : mcpCreateEscrow es ca creatorId amount_usd counterparty_agent_id description
      timeout_hours referral_code freshId now = (r, es', ca')) :
    es' = es ∨
    ∃ rid : Option String,
      createEscrow es
        ⟨freshId, creatorId, counterparty_agent_id, amount_usd,
         round6 (amount_usd * (1 / 100)), description, clampTimeoutHours timeout_hours,
         rid, referralCommissionOf (round6 (amount_usd * (1 / 100))) rid⟩ now
        = some es' := by
  unfold mcpCreateEscrow at h
  by_cases h3 : strBeginsWith counterparty_agent_id "ag_" = false
  · rw [if_pos h3] at h
    exact Or.inl (prod3_eq h).2.1.symm
  · rw [if_neg h3] at h
    by_cases h4 : counterparty_agent_id = creatorId
    · rw [if_pos h4] at h
      exact Or.inl (prod3_eq h).2.1.symm
    · rw [if_neg h4] at h
      cases hcp : getCasinoAgent ca counterparty_agent_id with
      | none =>
        rw [hcp] at h
        dsimp only at h
        exact Or.inl (prod3_eq h).2.1.symm
      | some cp =>
        rw [hcp] at h
        dsimp only at h
        cases hcr : getCasinoAgent ca creatorId with
        | none =>
          rw [hcr] at h
          dsimp only at h
          exact Or.inl (prod3_eq h).2.1.symm
        | some creator =>
          rw [hcr] at h
          dsimp only at h
          by_cases h5 : creator.balance_usd < amount_usd
          · rw [if_pos h5] at h
            exact Or.inl (prod3_eq h).2.1.symm
          · rw [if_neg h5] at h
            cases hd : debitCasinoBalance ca creatorId amount_usd
                ("escrow_lock: " ++ freshId) freshId with
            | mk ca1 debited =>
              rw [hd] at h
              dsimp only at h
              by_cases h6 : debited = false
              · rw [if_pos h6] at h
                exact Or.inl (prod3_eq h).2.1.symm
              · rw [if_neg h6] at h
                cases hce : createEscrow es
                    ⟨freshId, creatorId, counterparty_agent_id, amount_usd,
                     round6 (amount_usd * (1 / 100)), description,
                     clampTimeoutHours timeout_hours,
                     resolveReferrerMcp ca creatorId creator.referred_by referral_code,
                     referralCommissionOf (round6 (amount_usd * (1 / 100)))
                       (resolveReferrerMcp ca creatorId creator.referred_by
                         referral_code)⟩ now with
                | none =>
                  rw [hce] at h
                  dsimp only at h
                  cases hcc : creditCasinoBalance ca1 creatorId amount_usd
                      ("escrow_create_failed_refund: " ++ freshId)
                      (freshId ++ "_refund") with
                  | none =>
                    rw [hcc] at h
                    dsimp only at h
                    exact Or.inl (prod3_eq h).2.1.symm
                  | some ca2 =>
                    rw [hcc] at h
                    dsimp only at h
                    exact Or.inl (prod3_eq h).2.1.symm
                | some es1 =>
                  rw [hce] at h
                  dsimp only at h
                  rw [(prod3_eq h).2.1] at hce
                  exact Or.inr ⟨_, hce⟩

/-- The referral commission computed at creation is zero or the rounded 15%
of the commission it was computed from. -/
theorem referralCommissionOf_cases (c : Money) (rid : Option String) :
    referralCommissionOf c rid = 0 ∨
    referralCommissionOf c rid = round6 (c * (15 / 100)) := by
  unfold referralCommissionOf
  split
  · exact Or.inr rfl
  · exact Or.inl rfl

theorem step_preserves_inv {s t : EscrowState × Casino} (h : Step s t)
    (hs : Inv s.1) : Inv t.1 := by
  cases h with
  | httpCreate es ca creatorId body freshId now r es' ca' heq =>
    rcases escrowCreate_shape heq with h1 | ⟨hAmt, rid, hc⟩
    · rw [h1]; exact hs
    · exact inv_createEscrow hc hs rfl (referralCommissionOf_cases _ _) hAmt
  | mcpCreate es ca creatorId amount_usd cpid descr th rc freshId now r es' ca'
      hAmt hDesc heq =>
    rcases mcpCreateEscrow_shape heq with h1 | ⟨rid, hc⟩
    · rw [h1]; exact hs
    · exact inv_createEscrow hc hs rfl (referralCommissionOf_cases _ _) hAmt
  | httpComplete es ca actorId escrowId now r es' heq =>
    rcases escrowComplete_shape heq with h1 | ⟨e, _, _, _, h1⟩
    · rw [h1]; exact hs
    · rw [h1]; exact inv_markCompleted _ _ _ _ hs
  | mcpComplete es ca actorId escrowId now r es' heq =>
    rcases mcpMarkComplete_shape heq with h1 | ⟨e, _, _, _, h1⟩
    · rw [h1]; exact hs
    · rw [h1]; exact inv_markCompleted _ _ _ _ hs
  | httpRelease es ca actorId escrowId now r es' ca' heq =>
    rcases escrowRelease_shape heq with h1 | ⟨e, _, _, h1⟩
    · rw [h1]; exact hs
    · rw [h1]; exact inv_releaseEscrow _ _ _ _ _ hs
  | mcpRelease es ca actorId escrowId now r es' heq =>
    rcases mcpReleaseEscrow_shape heq with h1 | ⟨e, _, _, h1⟩
    · rw [h1]; exact hs
    · rw [h1]; exact inv_releaseEscrow _ _ _ _ _ hs
  | httpDispute es ca actorId escrowId reason now r es' heq =>
    rcases escrowDispute_shape heq with h1 | ⟨e, _, _, h1⟩
    · rw [h1]; exact hs
    · rw [h1]; exact inv_disputeEscrow _ _ _ _ _ hs
  | mcpDispute es ca actorId escrowId reason now r es' hReason heq =>
    rcases mcpDisputeEscrow_shape heq with h1 | ⟨e, _, _, h1⟩
    · rw [h1]; exact hs
    · rw [h1]; exact inv_disputeEscrow _ _ _ _ _ hs
  | sweep es ca now es' ca' heq =>
    have h1 := inv_processAutoReleases es ca now hs
    rw [heq] at h1
    exact h1

theorem reachable_inv {s : EscrowState × Casino} (h : Reachable s) : Inv s.1 := by
  induction h with
  | init ca =>
    exact ⟨List.nodup_nil, fun e he => absurd he (List.not_mem_nil e),
      fun e he => absurd he (List.not_mem_nil e)⟩
  | step hs hstep ih => exact step_preserves_inv hstep ih

/-! ## Sweeper frame lemmas -/

theorem getEscrow_createEscrow {s : EscrowState} {p : CreateParams} {now : ℤ}
    {s' : EscrowState} (hc : createEscrow s p now = some s')
    {id : String} {e : Escrow} (he : getEscrow s id = some e) :
    getEscrow s' id = some e := by
  unfold createEscrow at hc
  by_cases hex : s.escrows.any (fun e => e.id == p.id)
  · rw [if_pos hex] at hc
    exact Option.noConfusion hc
  · rw [if_neg hex] at hc
    simp only [Option.some.injEq] at hc
    subst hc
    show (s.escrows ++ [_]).find? (fun x => x.id == id) = some e
    rw [List.find?_append, show s.escrows.find? (fun x => x.id == id) = some e from he]
    rfl

theorem sweep_keeps_record {es : EscrowState} (ca : Casino) (now : ℤ)
    (hnd : IdsNodup es) {E : Escrow} (hm : E ∈ es.escrows)
    (hne : isExpired now E = false) :
    getEscrow (processAutoReleases es ca now).1 E.id = some E := by
  unfold processAutoReleases
  refine foldl_preserve _ (fun st => getEscrow st.1 E.id = some E) _
    (fun st x hx hst => ?_) (es, ca) (by exact getEscrow_eq_of_mem_nodup hm hnd)
  have hxm : x ∈ es.escrows := (List.mem_filter.1 hx).1
  have hexp : isExpired now x = true := (List.mem_filter.1 hx).2
  have hxe : E.id ≠ x.id := by
    intro heq
    have hxE : x = E := List.inj_on_of_nodup_map hnd hxm hm heq.symm
    rw [hxE] at hexp
    rw [hexp] at hne
    exact Bool.noConfusion hne
  show getEscrow (autoRefundOne now st x).1 E.id = some E
  rcases autoRefundOne_fst now st x with h1 | h1 <;> rw [h1]
  · exact hst
  · rw [getEscrow_refundEscrow_ne _ _ hxe]
    exact hst

theorem sweep_stats (es : EscrowState) (ca : Casino) (now : ℤ) :
    (processAutoReleases es ca now).1.stats = es.stats := by
  unfold processAutoReleases
  refine foldl_preserve _ (fun st => st.1.stats = es.stats) _
    (fun st x _ hst => ?_) (es, ca) rfl
  rcases autoRefundOne_fst now st x with h1 | h1 <;> rw [h1] <;> exact hst

/-! ## Timestamp preservation along a step -/

/-- Timestamps preserved from record `e` to record `ec`. -/
def TsLe (e ec : Escrow) : Prop :=
  (∀ ts, e.completed_at = some ts → ec.completed_at = some ts) ∧
  (∀ ts, e.released_at = some ts → ec.released_at = some ts) ∧
  (∀ ts, e.disputed_at = some ts → ec.disputed_at = some ts)

theorem tsLe_refl (e : Escrow) : TsLe e e :=
  ⟨fun _ h => h, fun _ h => h, fun _ h => h⟩

theorem tsLe_markCompleted {s : EscrowState} (hts : TsInv s) (id cp : String) (now : ℤ)
    {x : String} {e e' : Escrow} (he : getEscrow s x = some e)
    (he' : getEscrow (markCompleted s id cp now) x = some e') : TsLe e e' := by
  rw [getEscrow_markCompleted, he] at he'
  simp only [Option.map_some', Option.some.injEq] at he'
  subst he'
  by_cases hc : e.id = id ∧ e.status = Status.funded
  · rw [if_pos hc]
    have h0 := (hts e (getEscrow_mem he)).1 hc.2
    exact ⟨fun ts h => absurd (h0.1.symm.trans h) (by simp),
      fun _ h => h, fun _ h => h⟩
  · rw [if_neg hc]
    exact tsLe_refl e

theorem tsLe_releaseEscrow {s : EscrowState} (hts : TsInv s) (id : String)
    (a : Option String) (note : String) (now : ℤ)
    {x : String} {e e' : Escrow} (he : getEscrow s x = some e)
    (he' : getEscrow (releaseEscrow s id a note now) x = some e') : TsLe e e' := by
  rw [getEscrow_releaseEscrow, he] at he'
  simp only [Option.map_some', Option.some.injEq] at he'
  subst he'
  by_cases hc : e.id = id ∧ (e.status = Status.funded ∨ e.status = Status.completed)
  · rw [if_pos hc]
    have h0 : e.released_at = none := by
      rcases hc.2 with h2 | h2
      · exact ((hts e (getEscrow_mem he)).1 h2).2.1
      · exact ((hts e (getEscrow_mem he)).2 h2).1
    exact ⟨fun _ h => h, fun ts h => absurd (h0.symm.trans h) (by simp),
      fun _ h => h⟩
  · rw [if_neg hc]
    exact tsLe_refl e

theorem tsLe_disputeEscrow {s : EscrowState} (hts : TsInv s) (id actor reason : String)
    (now : ℤ) {x : String} {e e' : Escrow} (he : getEscrow s x = some e)
    (he' : getEscrow (disputeEscrow s id actor reason now) x = some e') : TsLe e e' := by
  rw [getEscrow_disputeEscrow, he] at he'
  simp only [Option.map_some', Option.some.injEq] at he'
  subst he'
  by_cases hc : e.id = id ∧ (e.status = Status.funded ∨ e.status = Status.completed)
  · rw [if_pos hc]
    have h0 : e.disputed_at = none := by
      rcases hc.2 with h2 | h2
      · exact ((hts e (getEscrow_mem he)).1 h2).2.2
      · exact ((hts e (getEscrow_mem he)).2 h2).2
    exact ⟨fun _ h => h, fun _ h => h,
      fun ts h => absurd (h0.symm.trans h) (by simp)⟩
  · rw [if_neg hc]
    exact tsLe_refl e

theorem tsLe_sweep {es : EscrowState} (ca : Casino) (now : ℤ)
    (hnd : IdsNodup es) (hts : TsInv es)
    {id : String} {e e' : Escrow} (he : getEscrow es id = some e)
    (he' : getEscrow (processAutoReleases es ca now).1 id = some e') : TsLe e e' := by
  unfold processAutoReleases at he'
  have key := foldl_preserve (autoRefundOne now)
    (fun st => ∀ ec, getEscrow st.1 id = some ec → TsLe e ec)
    (es.escrows.filter (isExpired now))
    (fun st x hx hst => ?_) (es, ca)
    (fun ec hec => by
      have h2 : some e = some ec := he.symm.trans hec
      injection h2 with h0
      rw [← h0]
      exact tsLe_refl e)
  · exact key e' he'
  · intro ec hec
    have hxm : x ∈ es.escrows := (List.mem_filter.1 hx).1
    have hexp : isExpired now x = true := (List.mem_filter.1 hx).2
    rcases autoRefundOne_fst now st x with h1 | h1
    · rw [h1] at hec
      exact hst ec hec
    · rw [h1] at hec
      by_cases hxe : id = x.id
      · subst hxe
        rw [getEscrow_refundEscrow] at hec
        cases hprev : getEscrow st.1 x.id with
        | none => rw [hprev] at hec; exact Option.noConfusion hec
        | some ep =>
          rw [hprev] at hec
          simp only [Option.map_some', Option.some.injEq] at hec
          subst hec
          have hprevLe := hst ep hprev
          have hpid : ep.id = x.id := getEscrow_some_id hprev
          rw [if_pos hpid]
          have hex : e = x := by
            have h2 := getEscrow_eq_of_mem_nodup hxm hnd
            rw [he] at h2
            simpa using h2
          have hrel : e.released_at = none := by
            rw [hex]
            have hst2 : x.status = Status.funded ∨ x.status = Status.completed := by
              have := of_decide_eq_true hexp
              exact this.1
            rcases hst2 with h2 | h2
            · exact ((hts x hxm).1 h2).2.1
            · exact ((hts x hxm).2 h2).1
          exact ⟨fun ts h => hprevLe.1 ts h,
            fun ts h => absurd (hrel.symm.trans h) (by simp),
            fun ts h => hprevLe.2.2 ts h⟩
      · rw [getEscrow_refundEscrow_ne _ _ hxe] at hec
        exact hst ec hec

/-! ## Explicit results of successful operations -/

theorem credit_eq {ca : Casino} {aid : String} {amt : Money} {reason ref : String}
    {a : CasinoAgent} (h : getCasinoAgent ca aid = some a) :
    creditCasinoBalance ca aid amt reason ref =
      some { agents := creditMap aid amt ca.agents,
             ledger := ca.ledger ++
               [⟨ref ++ "_credit", aid, "credit", amt, a.balance_usd + amt,
                 reason, ref⟩] } := by
  have hid : a.id = aid := by simpa using List.find?_some h
  unfold creditCasinoBalance
  have hf := find?_creditMap aid amt ca.agents aid
  rw [show ca.agents.find? (fun x => x.id == aid) = some a from h] at hf
  rw [hf]
  simp only [Option.map_some']
  rw [if_pos hid]

theorem getCasinoAgent_debitMap_self {ca ca' : Casino} {aid : String} {amt : Money}
    {a : CasinoAgent} (hca' : ca'.agents = debitMap aid amt ca.agents)
    (ha : getCasinoAgent ca aid = some a) :
    getCasinoAgent ca' aid = some { a with balance_usd := a.balance_usd - amt } := by
  rw [getCasinoAgent_debitMap ca aid amt hca', ha]
  simp only [Option.map_some']
  rw [if_pos (by simpa using List.find?_some ha)]

theorem balanceOf_debitMap_self {ca ca' : Casino} {aid : String} {amt : Money}
    {a : CasinoAgent} (hca' : ca'.agents = debitMap aid amt ca.agents)
    (ha : getCasinoAgent ca aid = some a) :
    balanceOf ca' aid = some (a.balance_usd - amt) := by
  unfold balanceOf
  rw [getCasinoAgent_debitMap_self hca' ha]
  rfl

theorem createEscrow_getEscrow_self {s : EscrowState} {p : CreateParams} {now : ℤ}
    {s' : EscrowState} (hc : createEscrow s p now = some s') :
    getEscrow s' p.id = some
      { id := p.id, creator_id := p.creatorId, counterparty_id := p.counterpartyId,
        amount_usd := p.amountUsd, commission_usd := p.commissionUsd,
        description := p.description, status := Status.funded,
        timeout_hours := p.timeoutHours, created_at := now, funded_at := some now,
        completed_at := none, released_at := none, disputed_at := none,
        auto_release_at := now + p.timeoutHours * 3600, referrer_id := p.referrerId,
        referral_commission_usd := p.referralCommissionUsd } := by
  unfold createEscrow at hc
  by_cases hex : s.escrows.any (fun e => e.id == p.id)
  · rw [if_pos hex] at hc
    exact Option.noConfusion hc
  · rw [if_neg hex] at hc
    simp only [Option.some.injEq] at hc
    subst hc
    have hnone : s.escrows.find? (fun x => x.id == p.id) = none := by
      rw [List.find?_eq_none]
      intro e he
      intro hcon
      exact hex (List.any_eq_true.2 ⟨e, he, hcon⟩)
    unfold getEscrow
    dsimp only
    rw [List.find?_append, hnone]
    simp [List.find?]

theorem escrowCreate_success {es : EscrowState} {ca : Casino} {creatorId : String}
    {body : CreateBody} {freshId : String} {now : ℤ} {cp creator : CasinoAgent}
    (hAmt : 1 / 10 ≤ body.amount_usd)
    (hDesc : 3 ≤ (jsTrim body.description).length)
    (hCp : strBeginsWith (jsTrim body.counterparty_agent_id) "ag_" = true)
    (hNe : (jsTrim body.counterparty_agent_id) ≠ creatorId)
    (hCpEx : getCasinoAgent ca (jsTrim body.counterparty_agent_id) = some cp)
    (hCrEx : getCasinoAgent ca creatorId = some creator)
    (hBal : body.amount_usd ≤ creator.balance_usd)
    (hFresh : es.escrows.any (fun e => e.id == freshId) = false) :
    ∃ es1,
      createEscrow es
        ⟨freshId, creatorId, (jsTrim body.counterparty_agent_id), body.amount_usd,
         round6 (body.amount_usd * (1 / 100)), (jsTrim body.description),
         clampTimeoutHours body.timeout_hours,
         resolveReferrerHttp ca creatorId creator.referred_by body.referral_code,
         referralCommissionOf (round6 (body.amount_usd * (1 / 100)))
           (resolveReferrerHttp ca creatorId creator.referred_by body.referral_code)⟩
        now = some es1 ∧
      escrowCreate es ca creatorId body freshId now =
        (Except.ok ⟨freshId, round6 (body.amount_usd * (1 / 100)),
           round6 (body.amount_usd - round6 (body.amount_usd * (1 / 100))),
           clampTimeoutHours body.timeout_hours⟩,
         es1,
         { agents := debitMap creatorId body.amount_usd ca.agents,
           ledger := ca.ledger ++
             [⟨freshId ++ "_debit", creatorId, "debit", body.amount_usd,
               creator.balance_usd - body.amount_usd, "escrow_lock: " ++ freshId,
               freshId⟩] }) := by
  obtain ⟨es1, hce⟩ : ∃ es1, createEscrow es
      ⟨freshId, creatorId, (jsTrim body.counterparty_agent_id), body.amount_usd,
       round6 (body.amount_usd * (1 / 100)), (jsTrim body.description),
       clampTimeoutHours body.timeout_hours,
       resolveReferrerHttp ca creatorId creator.referred_by body.referral_code,
       referralCommissionOf (round6 (body.amount_usd * (1 / 100)))
         (resolveReferrerHttp ca creatorId creator.referred_by body.referral_code)⟩
      now = some es1 := by
    unfold createEscrow
    rw [if_neg (by simp [hFresh])]
    exact ⟨_, rfl⟩
  refine ⟨es1, hce, ?_⟩
  unfold escrowCreate
  rw [if_neg (not_lt.2 hAmt), if_neg (not_lt.2 hDesc), if_neg (by simp [hCp]),
    if_neg hNe, hCpEx]
  dsimp only
  rw [hCrEx]
  dsimp only
  rw [if_neg (not_lt.2 hBal), debit_success hCrEx (not_lt.2 hBal)]
  dsimp only
  rw [if_neg (by simp), hce]

/-! ## Concrete sample data for witnesses and counterexamples -/

/-- A small casino: creator `ag_a`, counterparty `ag_b`, referrer `ag_r`. -/
def caW : Casino :=
  { agents := [⟨"ag_a", 100, none, some "ref_a"⟩, ⟨"ag_b", 5, none, some "ref_b"⟩,
               ⟨"ag_r", 0, none, some "ref_r"⟩],
    ledger := [] }

/-- A valid create request: ten dollars, default timeout, no referral code. -/
def bodyW : CreateBody := ⟨10, "do the task", "ag_b", none, none⟩

/-- A released (terminal) escrow record. -/
def escT : Escrow :=
  ⟨"esc_t", "ag_a", "ag_b", 10, 1 / 10, "done deal", Status.released, 24, 100,
   some 100, none, some 500, none, 86500, none, 0⟩

/-- A store holding only the released escrow `escT`. -/
def cexEs : EscrowState := ⟨[escT], [], ⟨1, 1, 0, 10, 1 / 10⟩⟩

/-- A funded escrow whose auto-release deadline (3700) has long passed. -/
def escF : Escrow :=
  ⟨"esc_f", "ag_a", "ag_b", 10, 1 / 10, "timed out", Status.funded, 1, 100,
   some 100, none, none, none, 3700, none, 0⟩

/-- A store holding only the expired funded escrow `escF`. -/
def cex8Es : EscrowState := ⟨[escF], [], ⟨1, 0, 0, 10, 0⟩⟩

/-- A casino whose creator `ag_c` has a stored default referrer `ag_r`;
no agent has the referral code `ref_x`. -/
def c6Ca : Casino :=
  { agents := [⟨"ag_c", 100, some "ag_r", some "ref_c"⟩, ⟨"ag_b", 5, none, some "ref_b"⟩,
               ⟨"ag_r", 0, none, some "ref_r"⟩],
    ledger := [] }

/-- A create request carrying the unresolvable referral code `ref_x`. -/
def c6Body : CreateBody := ⟨10, "do the task", "ag_b", none, some "ref_x"⟩

/-! ## Claim theorems -/

/-- C10: a timeout refund (`refundEscrow`) rewrites only the `status` and
`released_at` columns of the target record, leaves every other record
untouched, appends exactly one `refunded` event, and leaves the stats row
unchanged; a whole sweeper pass also leaves the stats row unchanged, so the
cumulative commission counter counts only released escrows. -/
theorem C10_refund_frame :
    (∀ (s : EscrowState) (id note : String) (now : ℤ) (e : Escrow),
      getEscrow s id = some e →
      getEscrow (refundEscrow s id note now) id =
        some { e with status := Status.refunded, released_at := some now }) ∧
    (∀ (s : EscrowState) (id note : String) (now : ℤ) (x : String), x ≠ id →
      getEscrow (refundEscrow s id note now) x = getEscrow s x) ∧
    (∀ (s : EscrowState) (id note : String) (now : ℤ),
      (refundEscrow s id note now).events =
        s.events ++ [⟨id ++ "_refunded", id, "refunded", none, note, now⟩]) ∧
    (∀ (s : EscrowState) (id note : String) (now : ℤ),
      (refundEscrow s id note now).stats = s.stats) ∧
    (∀ (es : EscrowState) (ca : Casino) (now : ℤ),
      (processAutoReleases es ca now).1.stats = es.stats) := by
  refine ⟨?_, ?_, ?_, ?_, ?_⟩
  · intro s id note now e he
    rw [getEscrow_refundEscrow, he]
    simp only [Option.map_some']
    rw [if_pos (getEscrow_some_id he)]
  · intro s id note now x hx
    exact getEscrow_refundEscrow_ne note now hx
  · intro s id note now
    rfl
  · intro s id note now
    rfl
  · intro es ca now
    exact sweep_stats es ca now

/-- C10 witness: refunding the concrete store rewrites exactly the status and
`released_at` of the target record. -/
theorem C10_refund_frame_witness :
    getEscrow (refundEscrow cexEs "esc_t" "n" 900) "esc_t" =
      some { escT with status := Status.refunded, released_at := some 900 } :=
  C10_refund_frame.1 cexEs "esc_t" "n" 900 escT rfl

/-- C7 counterexample: calling the `releaseEscrow` store helper on an escrow
that is already `released` leaves the record unchanged (the guarded update
matches zero rows) yet still appends a `released` event and still bumps
`total_released` and `total_commission_usd`, and nothing reports "already
transitioned". -/
theorem C7_events_counterexample :
    getEscrow (releaseEscrow cexEs "esc_t" (some "ag_a") "n" 900) "esc_t" =
      getEscrow cexEs "esc_t" ∧
    (releaseEscrow cexEs "esc_t" (some "ag_a") "n" 900).events.length =
      cexEs.events.length + 1 ∧
    (releaseEscrow cexEs "esc_t" (some "ag_a") "n" 900).stats.total_released =
      cexEs.stats.total_released + 1 ∧
    (releaseEscrow cexEs "esc_t" (some "ag_a") "n" 900).stats.total_commission_usd
      = cexEs.stats.total_commission_usd + escT.commission_usd :=
  ⟨rfl, rfl, rfl, rfl⟩

/-- C7 (amended): the event append and the counter bumps in the store helpers
are unconditional — they happen whether or not the guarded status update
matched a row; only the escrow record itself is protected by the guard (a
zero-row attempt leaves the record unchanged but still logs and counts, and
no "already transitioned" report exists). -/
theorem C7_events_amended (s : EscrowState) (id : String) (actorId : Option String)
    (note cp : String) (now : ℤ) :
    (releaseEscrow s id actorId note now).events =
      s.events ++ [⟨id ++ "_released", id, "released", actorId, note, now⟩] ∧
    (releaseEscrow s id actorId note now).stats.total_released =
      s.stats.total_released + 1 ∧
    (markCompleted s id cp now).events =
      s.events ++ [⟨id ++ "_completed", id, "completed", some cp,
        "Counterparty marked task complete", now⟩] ∧
    (∀ e, getEscrow s id = some e →
      (e.status = Status.funded ∨ e.status = Status.completed →
        getEscrow (releaseEscrow s id actorId note now) id =
          some { e with status := Status.released, released_at := some now }) ∧
      (¬ (e.status = Status.funded ∨ e.status = Status.completed) →
        getEscrow (releaseEscrow s id actorId note now) id = some e)) := by
  refine ⟨rfl, rfl, rfl, ?_⟩
  intro e he
  constructor
  · intro hst
    rw [getEscrow_releaseEscrow, he]
    simp only [Option.map_some']
    rw [if_pos ⟨getEscrow_some_id he, hst⟩]
  · intro hst
    rw [getEscrow_releaseEscrow, he]
    simp only [Option.map_some']
    rw [if_neg (fun hc => hst hc.2)]

/-- C7 witness: on the released record the guarded update applies to zero
rows and the record is unchanged. -/
theorem C7_events_witness :
    getEscrow (releaseEscrow cexEs "esc_t" (some "ag_a") "n" 900) "esc_t" =
      some escT :=
  ((C7_events_amended cexEs "esc_t" (some "ag_a") "n" "ag_b" 900).2.2.2 escT
    rfl).2 (by decide)

/-- C9: in every reachable system state, every stored escrow satisfies
`0 ≤ referral_commission ≤ commission ≤ amount`, with
`commission = round6(amount × 0.01)`, `referral_commission` either `0` or
`round6(commission × 0.15)`, and `amount` at or above the $0.10 minimum. -/
theorem C9_commission_bounds {es : EscrowState} {ca : Casino}
    (h : Reachable (es, ca)) :
    ∀ e ∈ es.escrows,
      0 ≤ e.referral_commission_usd ∧
      e.referral_commission_usd ≤ e.commission_usd ∧
      e.commission_usd ≤ e.amount_usd ∧
      e.commission_usd = round6 (e.amount_usd * (1 / 100)) ∧
      (e.referral_commission_usd = 0 ∨
        e.referral_commission_usd = round6 (e.commission_usd * (15 / 100))) ∧
      1 / 10 ≤ e.amount_usd := by
  intro e he
  obtain ⟨hcm, hrc, ha⟩ := (reachable_inv h).2.2 e he
  have hclb : 1 / 2000 ≤ e.commission_usd := by
    rw [hcm]
    exact commission_lb ha
  have hc0 : 0 ≤ e.commission_usd := le_trans (by norm_num) hclb
  refine ⟨?_, ?_, ?_, hcm, hrc, ha⟩
  · rcases hrc with h0 | h0
    · rw [h0]
    · rw [h0]
      exact refcomm_nonneg hc0
  · rcases hrc with h0 | h0
    · rw [h0]
      exact hc0
    · rw [h0]
      exact refcomm_le_commission hclb
  · rw [hcm]
    exact commission_le_amount ha

/-- C9 witness: the invariant evaluated on the store reached by one concrete
valid HTTP creation. -/
theorem C9_commission_bounds_witness :
    (escrowCreate initialEscrowState caW "ag_a" bodyW "esc_1" 1000).2.1.escrows.Forall
      (fun e =>
        0 ≤ e.referral_commission_usd ∧
        e.referral_commission_usd ≤ e.commission_usd ∧
        e.commission_usd ≤ e.amount_usd ∧
        e.commission_usd = round6 (e.amount_usd * (1 / 100)) ∧
        (e.referral_commission_usd = 0 ∨
          e.referral_commission_usd = round6 (e.commission_usd * (15 / 100))) ∧
        1 / 10 ≤ e.amount_usd) :=
  List.forall_iff_forall_mem.mpr
    (C9_commission_bounds (Reachable.step (Reachable.init caW)
      (Step.httpCreate initialEscrowState caW "ag_a" bodyW "esc_1" 1000 _ _ _ rfl)))

theorem mcpCreateEscrow_success {es : EscrowState} {ca : Casino} {creatorId : String}
    {amount_usd : Money} {counterparty_agent_id description : String}
    {timeout_hours : Option ℚ} {referral_code : Option String} {freshId : String}
    {now : ℤ} {cp creator : CasinoAgent}
    (hCp : strBeginsWith counterparty_agent_id "ag_" = true)
    (hNe : counterparty_agent_id ≠ creatorId)
    (hCpEx : getCasinoAgent ca counterparty_agent_id = some cp)
    (hCrEx : getCasinoAgent ca creatorId = some creator)
    (hBal : amount_usd ≤ creator.balance_usd)
    (hFresh : es.escrows.any (fun e => e.id == freshId) = false) :
    ∃ es1,
      createEscrow es
        ⟨freshId, creatorId, counterparty_agent_id, amount_usd,
         round6 (amount_usd * (1 / 100)), description, clampTimeoutHours timeout_hours,
         resolveReferrerMcp ca creatorId creator.referred_by referral_code,
         referralCommissionOf (round6 (amount_usd * (1 / 100)))
           (resolveReferrerMcp ca creatorId creator.referred_by referral_code)⟩
        now = some es1 ∧
      mcpCreateEscrow es ca creatorId amount_usd counterparty_agent_id description
        timeout_hours referral_code freshId now =
        (Except.ok ⟨freshId, round6 (amount_usd * (1 / 100)),
           round6 (amount_usd - round6 (amount_usd * (1 / 100))),
           clampTimeoutHours timeout_hours⟩,
         es1,
         { agents := debitMap creatorId amount_usd ca.agents,
           ledger := ca.ledger ++
             [⟨freshId ++ "_debit", creatorId, "debit", amount_usd,
               creator.balance_usd - amount_usd, "escrow_lock: " ++ freshId,
               freshId⟩] }) := by
  obtain ⟨es1, hce⟩ : ∃ es1, createEscrow es
      ⟨freshId, creatorId, counterparty_agent_id, amount_usd,
       round6 (amount_usd * (1 / 100)), description, clampTimeoutHours timeout_hours,
       resolveReferrerMcp ca creatorId creator.referred_by referral_code,
       referralCommissionOf (round6 (amount_usd * (1 / 100)))
         (resolveReferrerMcp ca creatorId creator.referred_by referral_code)⟩
      now = some es1 := by
    unfold createEscrow
    rw [if_neg (by simp [hFresh])]
    exact ⟨_, rfl⟩
  refine ⟨es1, hce, ?_⟩
  unfold mcpCreateEscrow
  rw [if_neg (by simp [hCp]), if_neg hNe, hCpEx]
  dsimp only
  rw [hCrEx]
  dsimp only
  rw [if_neg (not_lt.2 hBal), debit_success hCrEx (not_lt.2 hBal)]
  dsimp only
  rw [if_neg (by simp), hce]

/-- C1 (amended): on a terminal escrow (`released` or `refunded`), release
and dispute — over HTTP or MCP — return the `invalid_status` error (the
spec's `invalid_state`) and leave both stores untouched; the auto-refund
sweeper pass never selects a terminal escrow and leaves its record unchanged,
but it reports no error at all (and the underlying unguarded `refundEscrow`
helper, applied directly to a terminal record, would rewrite it — see the
counterexample). -/
theorem C1_terminal_frozen {es : EscrowState} {ca : Casino} {escrowId : String}
    {e : Escrow} (he : getEscrow es escrowId = some e)
    (hterm : e.status = Status.released ∨ e.status = Status.refunded) :
    (∀ actorId now, e.creator_id = actorId →
      escrowRelease es ca actorId escrowId now =
        (Except.error ApiError.invalid_status, es, ca)) ∧
    (∀ actorId reason now, e.creator_id = actorId ∨ e.counterparty_id = actorId →
      escrowDispute es actorId escrowId reason now =
        (Except.error ApiError.invalid_status, es)) ∧
    (∀ actorId now, e.creator_id = actorId →
      mcpReleaseEscrow es actorId escrowId now =
        (Except.error ApiError.invalid_status, es)) ∧
    (∀ actorId reason now, e.creator_id = actorId ∨ e.counterparty_id = actorId →
      mcpDisputeEscrow es actorId escrowId reason now =
        (Except.error ApiError.invalid_status, es)) ∧
    (∀ now, IdsNodup es →
      getEscrow (processAutoReleases es ca now).1 escrowId = some e) := by
  have hnstat : ¬ (e.status = Status.funded ∨ e.status = Status.completed) := by
    rintro (h2 | h2) <;> rcases hterm with h3 | h3 <;>
      exact Status.noConfusion (h3.symm.trans h2)
  refine ⟨?_, ?_, ?_, ?_, ?_⟩
  · intro actorId now hcr
    unfold escrowRelease
    rw [he]
    dsimp only
    rw [if_neg (not_not_intro hcr), if_pos hnstat]
  · intro actorId reason now hpart
    unfold escrowDispute
    rw [he]
    dsimp only
    rw [if_neg ?hp, if_pos hnstat]
    case hp =>
      rcases hpart with h3 | h3
      · exact fun hc => hc.1 h3
      · exact fun hc => hc.2 h3
  · intro actorId now hcr
    unfold mcpReleaseEscrow
    rw [he]
    dsimp only
    rw [if_neg (not_not_intro hcr), if_pos hnstat]
  · intro actorId reason now hpart
    unfold mcpDisputeEscrow
    rw [he]
    dsimp only
    rw [if_neg ?hp2, if_pos hnstat]
    case hp2 =>
      rcases hpart with h3 | h3
      · exact fun hc => hc.1 h3
      · exact fun hc => hc.2 h3
  · intro now hnd
    have hne : isExpired now e = false := by
      unfold isExpired
      apply decide_eq_false
      rintro ⟨h2, _⟩
      exact hnstat h2
    have h4 := sweep_keeps_record ca now hnd (getEscrow_mem he) hne
    rwa [getEscrow_some_id he] at h4

/-- C1 counterexample: the record of a released escrow is NOT left unchanged
by the refund transition: the unguarded `refundEscrow` store helper rewrites
its status to `refunded` and overwrites `released_at`, and produces no
`invalid_state` error (it has no error outcome at all). -/
theorem C1_terminal_counterexample :
    (getEscrow cexEs "esc_t").map Escrow.status = some Status.released ∧
    getEscrow (refundEscrow cexEs "esc_t" "Auto-refunded after timeout" 900)
      "esc_t" =
      some { escT with status := Status.refunded, released_at := some 900 } :=
  ⟨rfl, rfl⟩

/-- C1 witness: a released escrow rejects release with `invalid_status` and
survives a sweeper pass unchanged. -/
theorem C1_terminal_witness :
    escrowRelease cexEs caW "ag_a" "esc_t" 900 =
      (Except.error ApiError.invalid_status, cexEs, caW) ∧
    getEscrow (processAutoReleases cexEs caW 900).1 "esc_t" = some escT :=
  ⟨(C1_terminal_frozen (show getEscrow cexEs "esc_t" = some escT from rfl)
      (Or.inl rfl)).1 "ag_a" 900 rfl,
   (C1_terminal_frozen (show getEscrow cexEs "esc_t" = some escT from rfl)
      (Or.inl rfl)).2.2.2.2 900 (by unfold IdsNodup; decide)⟩

/-- C6 (amended): the stated precedence — an explicit referral code resolving
to an account other than the creator wins, otherwise the creator's stored
default referrer is used — is implemented by the MCP tool; the HTTP route
consults the stored default referrer only when no (truthy) code was supplied:
a supplied code that does not resolve, or resolves to the creator, yields no
referrer over HTTP while the MCP tool falls back to the default.  The
referral commission is `round6(commission × 0.15)` when a referrer exists and
`0` otherwise in both paths. -/
theorem C6_referrer_resolution :
    (∀ (ca : Casino) (creatorId : String) (rb code : Option String)
        (r : CasinoAgent), optTruthy code = true →
      findAgentByReferralCode ca (code.getD "") = some r → r.id ≠ creatorId →
      resolveReferrerHttp ca creatorId rb code = some r.id ∧
      resolveReferrerMcp ca creatorId rb code = some r.id) ∧
    (∀ (ca : Casino) (creatorId : String) (rb code : Option String),
      optTruthy code = false →
      resolveReferrerHttp ca creatorId rb code =
        (if optTruthy rb then rb else none) ∧
      resolveReferrerMcp ca creatorId rb code = rb) ∧
    (∀ (ca : Casino) (creatorId : String) (rb code : Option String),
      optTruthy code = true →
      findAgentByReferralCode ca (code.getD "") = none →
      resolveReferrerHttp ca creatorId rb code = none ∧
      resolveReferrerMcp ca creatorId rb code = rb) ∧
    (∀ (ca : Casino) (creatorId : String) (rb code : Option String)
        (r : CasinoAgent), optTruthy code = true →
      findAgentByReferralCode ca (code.getD "") = some r → r.id = creatorId →
      resolveReferrerHttp ca creatorId rb code = none ∧
      resolveReferrerMcp ca creatorId rb code = rb) ∧
    (∀ (c : Money) (rid : Option String), referralCommissionOf c rid =
      if optTruthy rid then round6 (c * (15 / 100)) else 0) := by
  refine ⟨?_, ?_, ?_, ?_, fun c rid => rfl⟩
  · intro ca creatorId rb code r hcode hfind hne
    unfold resolveReferrerHttp resolveReferrerMcp
    rw [if_pos hcode, if_pos hcode, hfind]
    dsimp only
    rw [if_pos hne, if_pos hne]
    exact ⟨rfl, rfl⟩
  · intro ca creatorId rb code hcode
    constructor
    · unfold resolveReferrerHttp
      rw [if_neg (by simp [hcode])]
    · unfold resolveReferrerMcp
      rw [if_neg (by simp [hcode])]
  · intro ca creatorId rb code hcode hfind
    unfold resolveReferrerHttp resolveReferrerMcp
    rw [if_pos hcode, if_pos hcode, hfind]
    exact ⟨rfl, rfl⟩
  · intro ca creatorId rb code r hcode hfind heq
    unfold resolveReferrerHttp resolveReferrerMcp
    rw [if_pos hcode, if_pos hcode, hfind]
    dsimp only
    rw [if_neg (not_not_intro heq), if_neg (not_not_intro heq)]
    exact ⟨rfl, rfl⟩

/-- C6 counterexample: on the same inputs — creator `ag_c` with stored
default referrer `ag_r`, supplied referral code `ref_x` that resolves to no
account — the HTTP create stores no referrer while the MCP `create_escrow`
tool stores `ag_r`: the stated resolution rule (fall back to the default
referrer) fails for the HTTP route, and the two paths differ. -/
theorem C6_referrer_counterexample :
    ((getEscrow (escrowCreate initialEscrowState c6Ca "ag_c" c6Body "esc_1"
        1000).2.1 "esc_1").map Escrow.referrer_id = some none) ∧
    ((getEscrow (mcpCreateEscrow initialEscrowState c6Ca "ag_c" 10 "ag_b"
        "do the task" none (some "ref_x") "esc_2" 1000).2.1 "esc_2").map
      Escrow.referrer_id = some (some "ag_r")) := by
  constructor
  · obtain ⟨es1, hce, hkey⟩ :=
      @escrowCreate_success initialEscrowState c6Ca "ag_c" c6Body "esc_1" 1000
        ⟨"ag_b", 5, none, some "ref_b"⟩ ⟨"ag_c", 100, some "ag_r", some "ref_c"⟩
        (by norm_num [c6Body]) (by decide) (by decide) (by decide) rfl rfl
        (by norm_num [c6Body]) rfl
    rw [hkey]
    dsimp only
    rw [createEscrow_getEscrow_self hce]
    rfl
  · obtain ⟨es1, hce, hkey⟩ :=
      @mcpCreateEscrow_success initialEscrowState c6Ca "ag_c" 10 "ag_b"
        "do the task" none (some "ref_x") "esc_2" 1000
        ⟨"ag_b", 5, none, some "ref_b"⟩ ⟨"ag_c", 100, some "ag_r", some "ref_c"⟩
        (by decide) (by decide) rfl rfl (by norm_num) rfl
    rw [hkey]
    dsimp only
    rw [createEscrow_getEscrow_self hce]
    rfl

/-- C6 witness: the amended resolution rule evaluated at the concrete casino:
a resolving code wins on both paths, and with no code both use the default. -/
theorem C6_referrer_witness :
    (resolveReferrerHttp c6Ca "ag_c" (some "ag_r") (some "ref_b") = some "ag_b" ∧
     resolveReferrerMcp c6Ca "ag_c" (some "ag_r") (some "ref_b") = some "ag_b") ∧
    (resolveReferrerHttp c6Ca "ag_c" (some "ag_r") none = some "ag_r" ∧
     resolveReferrerMcp c6Ca "ag_c" (some "ag_r") none = some "ag_r") :=
  ⟨C6_referrer_resolution.1 c6Ca "ag_c" (some "ag_r") (some "ref_b")
     ⟨"ag_b", 5, none, some "ref_b"⟩ rfl rfl (by decide),
   C6_referrer_resolution.2.1 c6Ca "ag_c" (some "ag_r") none rfl⟩

/-- C8 (amended): along every step from a reachable state, each of
`completed_at`, `released_at`, `disputed_at`, once set on a stored escrow, is
never cleared or overwritten — but `released_at` is set not only by release:
the timeout refund stores its own timestamp in `released_at` (there is no
separate refunded-at column; see the counterexample). -/
theorem C8_timestamps_preserved {s t : EscrowState × Casino} (hre : Reachable s)
    (hstep : Step s t) {id : String} {e e' : Escrow}
    (he : getEscrow s.1 id = some e) (he' : getEscrow t.1 id = some e') :
    TsLe e e' := by
  obtain ⟨hnd, hts, _⟩ := reachable_inv hre
  cases hstep with
  | httpCreate es ca creatorId body freshId now r es' ca' heq =>
    rcases escrowCreate_shape heq with h1 | ⟨_, rid, hc⟩
    · rw [h1] at he'
      have h2 := he.symm.trans he'
      injection h2 with h3
      rw [← h3]
      exact tsLe_refl e
    · have h2 := (getEscrow_createEscrow hc he).symm.trans he'
      injection h2 with h3
      rw [← h3]
      exact tsLe_refl e
  | mcpCreate es ca creatorId amount_usd cpid descr th rc freshId now r es' ca'
      hAmt hDesc heq =>
    rcases mcpCreateEscrow_shape heq with h1 | ⟨rid, hc⟩
    · rw [h1] at he'
      have h2 := he.symm.trans he'
      injection h2 with h3
      rw [← h3]
      exact tsLe_refl e
    · have h2 := (getEscrow_createEscrow hc he).symm.trans he'
      injection h2 with h3
      rw [← h3]
      exact tsLe_refl e
  | httpComplete es ca actorId escrowId now r es' heq =>
    rcases escrowComplete_shape heq with h1 | ⟨e2, _, _, _, h1⟩
    · rw [h1] at he'
      have h2 := he.symm.trans he'
      injection h2 with h3
      rw [← h3]
      exact tsLe_refl e
    · rw [h1] at he'
      exact tsLe_markCompleted hts escrowId actorId now he he'
  | mcpComplete es ca actorId escrowId now r es' heq =>
    rcases mcpMarkComplete_shape heq with h1 | ⟨e2, _, _, _, h1⟩
    · rw [h1] at he'
      have h2 := he.symm.trans he'
      injection h2 with h3
      rw [← h3]
      exact tsLe_refl e
    · rw [h1] at he'
      exact tsLe_markCompleted hts escrowId actorId now he he'
  | httpRelease es ca actorId escrowId now r es' ca' heq =>
    rcases escrowRelease_shape heq with h1 | ⟨e2, _, _, h1⟩
    · rw [h1] at he'
      have h2 := he.symm.trans he'
      injection h2 with h3
      rw [← h3]
      exact tsLe_refl e
    · rw [h1] at he'
      exact tsLe_releaseEscrow hts escrowId (some actorId) _ now he he'
  | mcpRelease es ca actorId escrowId now r es' heq =>
    rcases mcpReleaseEscrow_shape heq with h1 | ⟨e2, _, _, h1⟩
    · rw [h1] at he'
      have h2 := he.symm.trans he'
      injection h2 with h3
      rw [← h3]
      exact tsLe_refl e
    · rw [h1] at he'
      exact tsLe_releaseEscrow hts escrowId (some actorId) _ now he he'
  | httpDispute es ca actorId escrowId reason now r es' heq =>
    rcases escrowDispute_shape heq with h1 | ⟨e2, _, _, h1⟩
    · rw [h1] at he'
      have h2 := he.symm.trans he'
      injection h2 with h3
      rw [← h3]
      exact tsLe_refl e
    · rw [h1] at he'
      exact tsLe_disputeEscrow hts escrowId actorId reason now he he'
  | mcpDispute es ca actorId escrowId reason now r es' hReason heq =>
    rcases mcpDisputeEscrow_shape heq with h1 | ⟨e2, _, _, h1⟩
    · rw [h1] at he'
      have h2 := he.symm.trans he'
      injection h2 with h3
      rw [← h3]
      exact tsLe_refl e
    · rw [h1] at he'
      exact tsLe_disputeEscrow hts escrowId actorId reason now he he'
  | sweep es ca now es' ca' heq =>
    have h1 : es' = (processAutoReleases es ca now).1 := by rw [heq]
    rw [h1] at he'
    exact tsLe_sweep ca now hnd hts he he'

/-- C8 counterexample: a sweeper pass over an expired escrow that was never
released sets `released_at` (to the sweep time) while flipping the status to
`refunded`: `released_at` is not set only by the release transition, and the
refund transition does touch it. -/
theorem C8_released_at_counterexample :
    (getEscrow cex8Es "esc_f").map Escrow.released_at = some none ∧
    (getEscrow cex8Es "esc_f").map Escrow.status = some Status.funded ∧
    (getEscrow (processAutoReleases cex8Es caW 5000).1 "esc_f").map
      Escrow.released_at = some (some 5000) ∧
    (getEscrow (processAutoReleases cex8Es caW 5000).1 "esc_f").map
      Escrow.status = some Status.refunded :=
  ⟨rfl, rfl, rfl, rfl⟩

/-- C8 witness: timestamps preserved across a concrete complete step after a
concrete creation. -/
theorem C8_timestamps_witness :
    ∃ e e',
      getEscrow (escrowCreate initialEscrowState caW "ag_a" bodyW "esc_1"
        1000).2.1 "esc_1" = some e ∧
      getEscrow (escrowComplete
        (escrowCreate initialEscrowState caW "ag_a" bodyW "esc_1" 1000).2.1
        "ag_b" "esc_1" 2000).2 "esc_1" = some e' ∧
      TsLe e e' := by
  obtain ⟨es1, hce, hkey⟩ :=
    @escrowCreate_success initialEscrowState caW "ag_a" bodyW "esc_1" 1000
      ⟨"ag_b", 5, none, some "ref_b"⟩ ⟨"ag_a", 100, none, some "ref_a"⟩
      (by norm_num [bodyW]) (by decide) (by decide) (by decide) rfl rfl
      (by norm_num [bodyW]) rfl
  have hS1 : getEscrow (escrowCreate initialEscrowState caW "ag_a" bodyW "esc_1"
      1000).2.1 "esc_1" = getEscrow es1 "esc_1" := by rw [hkey]
  have hrec := createEscrow_getEscrow_self hce
  have he := hS1.trans hrec
  have hcomp : escrowComplete
      (escrowCreate initialEscrowState caW "ag_a" bodyW "esc_1" 1000).2.1
      "ag_b" "esc_1" 2000 =
      (Except.ok (), markCompleted
        (escrowCreate initialEscrowState caW "ag_a" bodyW "esc_1" 1000).2.1
        "esc_1" "ag_b" 2000) := by
    unfold escrowComplete
    rw [he]
    dsimp only
    rw [if_neg (by decide), if_neg (by decide)]
  obtain ⟨E', he'⟩ : ∃ E', getEscrow (escrowComplete
      (escrowCreate initialEscrowState caW "ag_a" bodyW "esc_1" 1000).2.1
      "ag_b" "esc_1" 2000).2 "esc_1" = some E' := by
    rw [hcomp]
    dsimp only
    rw [getEscrow_markCompleted, he]
    exact ⟨_, rfl⟩
  exact ⟨_, E', he, he',
    C8_timestamps_preserved
      (Reachable.step (Reachable.init caW)
        (Step.httpCreate initialEscrowState caW "ag_a" bodyW "esc_1" 1000 _ _ _ rfl))
      (Step.httpComplete _ _ "ag_b" "esc_1" 2000 _ _ rfl) he he'⟩

/-- C3: every valid creation (amount at or above the minimum, description of
minimum length after trimming, well-formed counterparty distinct from the
creator and existing, creator balance at least the amount, fresh id) debits
the creator exactly the amount and stores a `funded` escrow whose
`auto_release_at` is `created_at + clamp(timeoutHours,1,720)×3600` seconds,
with `timeoutHours` defaulting to 24 when absent. -/
theorem C3_create_effect {es : EscrowState} {ca : Casino} {creatorId : String}
    {body : CreateBody} {freshId : String} {now : ℤ} {cp creator : CasinoAgent}
    (hAmt : 1 / 10 ≤ body.amount_usd)
    (hDesc : 3 ≤ (jsTrim body.description).length)
    (hCp : strBeginsWith (jsTrim body.counterparty_agent_id) "ag_" = true)
    (hNe : jsTrim body.counterparty_agent_id ≠ creatorId)
    (hCpEx : getCasinoAgent ca (jsTrim body.counterparty_agent_id) = some cp)
    (hCrEx : getCasinoAgent ca creatorId = some creator)
    (hBal : body.amount_usd ≤ creator.balance_usd)
    (hFresh : es.escrows.any (fun e => e.id == freshId) = false) :
    (∃ okv, (escrowCreate es ca creatorId body freshId now).1 = Except.ok okv) ∧
    balanceOf (escrowCreate es ca creatorId body freshId now).2.2 creatorId =
      some (creator.balance_usd - body.amount_usd) ∧
    ∃ E, getEscrow (escrowCreate es ca creatorId body freshId now).2.1 freshId =
        some E ∧
      E.status = Status.funded ∧
      E.created_at = now ∧
      E.auto_release_at =
        E.created_at + min (max 1 ⌊(body.timeout_hours.getD 24 : ℚ)⌋) 720 * 3600 ∧
      E.amount_usd = body.amount_usd ∧
      E.creator_id = creatorId ∧
      E.counterparty_id = jsTrim body.counterparty_agent_id := by
  obtain ⟨es1, hce, hkey⟩ :=
    escrowCreate_success hAmt hDesc hCp hNe hCpEx hCrEx hBal hFresh
  rw [hkey]
  refine ⟨⟨_, rfl⟩, balanceOf_debitMap_self rfl hCrEx, ?_⟩
  exact ⟨_, createEscrow_getEscrow_self hce, rfl, rfl, rfl, rfl, rfl, rfl⟩

/-- C3 witness: a concrete valid creation debits `ag_a` from 100 by 10 and
stores a funded escrow with a 24-hour auto-release window. -/
theorem C3_create_effect_witness :
    balanceOf (escrowCreate initialEscrowState caW "ag_a" bodyW "esc_1"
      1000).2.2 "ag_a" = some ((100 : ℚ) - 10) ∧
    ∃ E, getEscrow (escrowCreate initialEscrowState caW "ag_a" bodyW "esc_1"
        1000).2.1 "esc_1" = some E ∧
      E.status = Status.funded ∧
      E.auto_release_at = E.created_at + 24 * 3600 := by
  have h := @C3_create_effect initialEscrowState caW "ag_a" bodyW "esc_1" 1000
    ⟨"ag_b", 5, none, some "ref_b"⟩ ⟨"ag_a", 100, none, some "ref_a"⟩
    (by norm_num [bodyW]) (by decide) (by decide) (by decide) rfl rfl
    (by norm_num [bodyW]) rfl
  obtain ⟨E, hE, hst, hcr, hauto, _⟩ := h.2.2
  refine ⟨h.2.1, E, hE, hst, ?_⟩
  rw [hauto]
  norm_num [bodyW]

/-- C5: when the debit succeeded but the durable creation of the escrow
record fails (here: the generated id collides with an existing row, making
the `INSERT` throw), the creator is credited back exactly the debited amount,
the operation reports an error, the escrow store is unchanged, and no other
agent's record moves. -/
theorem C5_compensating_refund {es : EscrowState} {ca : Casino} {creatorId : String}
    {body : CreateBody} {freshId : String} {now : ℤ} {cp creator : CasinoAgent}
    (hAmt : 1 / 10 ≤ body.amount_usd)
    (hDesc : 3 ≤ (jsTrim body.description).length)
    (hCp : strBeginsWith (jsTrim body.counterparty_agent_id) "ag_" = true)
    (hNe : jsTrim body.counterparty_agent_id ≠ creatorId)
    (hCpEx : getCasinoAgent ca (jsTrim body.counterparty_agent_id) = some cp)
    (hCrEx : getCasinoAgent ca creatorId = some creator)
    (hBal : body.amount_usd ≤ creator.balance_usd)
    (hStale : es.escrows.any (fun e => e.id == freshId) = true) :
    (escrowCreate es ca creatorId body freshId now).1 =
      Except.error ApiError.internal_error ∧
    (escrowCreate es ca creatorId body freshId now).2.1 = es ∧
    balanceOf (escrowCreate es ca creatorId body freshId now).2.2 creatorId =
      some creator.balance_usd ∧
    (∀ x, x ≠ creatorId →
      getCasinoAgent (escrowCreate es ca creatorId body freshId now).2.2 x =
        getCasinoAgent ca x) := by
  have hcn : createEscrow es
      ⟨freshId, creatorId, jsTrim body.counterparty_agent_id, body.amount_usd,
       round6 (body.amount_usd * (1 / 100)), jsTrim body.description,
       clampTimeoutHours body.timeout_hours,
       resolveReferrerHttp ca creatorId creator.referred_by body.referral_code,
       referralCommissionOf (round6 (body.amount_usd * (1 / 100)))
         (resolveReferrerHttp ca creatorId creator.referred_by
           body.referral_code)⟩ now = none := by
    unfold createEscrow
    rw [if_pos hStale]
  have hca1 : getCasinoAgent
      ({ agents := debitMap creatorId body.amount_usd ca.agents,
         ledger := ca.ledger ++
           [⟨freshId ++ "_debit", creatorId, "debit", body.amount_usd,
             creator.balance_usd - body.amount_usd, "escrow_lock: " ++ freshId,
             freshId⟩] } : Casino) creatorId =
      some { creator with balance_usd := creator.balance_usd - body.amount_usd } :=
    getCasinoAgent_debitMap_self rfl hCrEx
  have hcc := @credit_eq _ creatorId body.amount_usd
    ("escrow_create_failed_refund: " ++ freshId) (freshId ++ "_refund") _ hca1
  have hkey : escrowCreate es ca creatorId body freshId now =
      (Except.error ApiError.internal_error, es,
       { agents := creditMap creatorId body.amount_usd
           (debitMap creatorId body.amount_usd ca.agents),
         ledger := ca.ledger ++
           [⟨freshId ++ "_debit", creatorId, "debit", body.amount_usd,
             creator.balance_usd - body.amount_usd, "escrow_lock: " ++ freshId,
             freshId⟩] ++
           [⟨freshId ++ "_refund" ++ "_credit", creatorId, "credit",
             body.amount_usd,
             creator.balance_usd - body.amount_usd + body.amount_usd,
             "escrow_create_failed_refund: " ++ freshId,
             freshId ++ "_refund"⟩] }) := by
    unfold escrowCreate
    rw [if_neg (not_lt.2 hAmt), if_neg (not_lt.2 hDesc), if_neg (by simp [hCp]),
      if_neg hNe, hCpEx]
    dsimp only
    rw [hCrEx]
    dsimp only
    rw [if_neg (not_lt.2 hBal), debit_success hCrEx (not_lt.2 hBal)]
    dsimp only
    rw [if_neg (by simp), hcn]
    dsimp only
    rw [hcc]
  rw [hkey]
  refine ⟨rfl, rfl, ?_, ?_⟩
  · have hb2 : balanceOf
        ({ agents := creditMap creatorId body.amount_usd
             (debitMap creatorId body.amount_usd ca.agents),
           ledger := ca.ledger ++
             [⟨freshId ++ "_debit", creatorId, "debit", body.amount_usd,
               creator.balance_usd - body.amount_usd, "escrow_lock: " ++ freshId,
               freshId⟩] ++
             [⟨freshId ++ "_refund" ++ "_credit", creatorId, "credit",
               body.amount_usd,
               creator.balance_usd - body.amount_usd + body.amount_usd,
               "escrow_create_failed_refund: " ++ freshId,
               freshId ++ "_refund"⟩] } : Casino) creatorId =
        some (creator.balance_usd - body.amount_usd + body.amount_usd) :=
      balanceOf_credit_self hcc hca1
    rw [hb2, sub_add_cancel]
  · intro x hx
    have h1 : getCasinoAgent
        ({ agents := creditMap creatorId body.amount_usd
             (debitMap creatorId body.amount_usd ca.agents),
           ledger := ca.ledger ++
             [⟨freshId ++ "_debit", creatorId, "debit", body.amount_usd,
               creator.balance_usd - body.amount_usd, "escrow_lock: " ++ freshId,
               freshId⟩] ++
             [⟨freshId ++ "_refund" ++ "_credit", creatorId, "credit",
               body.amount_usd,
               creator.balance_usd - body.amount_usd + body.amount_usd,
               "escrow_create_failed_refund: " ++ freshId,
               freshId ++ "_refund"⟩] } : Casino) x =
        getCasinoAgent
        ({ agents := debitMap creatorId body.amount_usd ca.agents,
           ledger := ca.ledger ++
             [⟨freshId ++ "_debit", creatorId, "debit", body.amount_usd,
               creator.balance_usd - body.amount_usd, "escrow_lock: " ++ freshId,
               freshId⟩] } : Casino) x :=
      getCasinoAgent_credit_other hcc hx
    exact h1.trans (balanceOf_debitMap_other rfl hx)

/-- C5 witness: a creation whose generated id collides with the stored
released escrow: the error is reported, the store is unchanged, and the
creator's balance is restored. -/
theorem C5_compensating_refund_witness :
    (escrowCreate cexEs caW "ag_a" bodyW "esc_t" 1000).1 =
      Except.error ApiError.internal_error ∧
    (escrowCreate cexEs caW "ag_a" bodyW "esc_t" 1000).2.1 = cexEs ∧
    balanceOf (escrowCreate cexEs caW "ag_a" bodyW "esc_t" 1000).2.2 "ag_a" =
      some (100 : ℚ) := by
  have h := @C5_compensating_refund cexEs caW "ag_a" bodyW "esc_t" 1000
    ⟨"ag_b", 5, none, some "ref_b"⟩ ⟨"ag_a", 100, none, some "ref_a"⟩
    (by norm_num [bodyW]) (by decide) (by decide) (by decide) rfl rfl
    (by norm_num [bodyW]) rfl
  exact ⟨h.1, h.2.1, h.2.2.1⟩

/-- C2: a release by the creator of a `funded` or `completed` escrow credits
the counterparty exactly `round6(amount − commission)`, credits the referrer
exactly its referral commission when a (truthy) referrer with positive
referral commission exists, leaves every other account untouched (the house
share is never credited to anyone), marks the record `released`, and bumps
the released counter by one and the cumulative commission counter by the
escrow's commission. -/
theorem C2_release_effect {es : EscrowState} {ca : Casino} {actorId escrowId : String}
    {now : ℤ} {e : Escrow} {cp : CasinoAgent}
    (he : getEscrow es escrowId = some e)
    (hcr : e.creator_id = actorId)
    (hst : e.status = Status.funded ∨ e.status = Status.completed)
    (hcp : getCasinoAgent ca e.counterparty_id = some cp) :
    (getEscrow (releaseEscrow es escrowId (some actorId)
        ("Released by creator " ++ actorId) now) escrowId =
      some { e with status := Status.released, released_at := some now } ∧
     (releaseEscrow es escrowId (some actorId) ("Released by creator " ++ actorId)
        now).stats.total_released = es.stats.total_released + 1 ∧
     (releaseEscrow es escrowId (some actorId) ("Released by creator " ++ actorId)
        now).stats.total_commission_usd =
       es.stats.total_commission_usd + e.commission_usd) ∧
    ((e.referrer_id = none ∨ e.referrer_id = some "" ∨
        e.referral_commission_usd ≤ 0) →
      ∃ ca1, escrowRelease es ca actorId escrowId now =
        (Except.ok (round6 (e.amount_usd - e.commission_usd)),
         releaseEscrow es escrowId (some actorId)
           ("Released by creator " ++ actorId) now, ca1) ∧
        balanceOf ca1 e.counterparty_id =
          some (cp.balance_usd + round6 (e.amount_usd - e.commission_usd)) ∧
        (∀ x, x ≠ e.counterparty_id →
          getCasinoAgent ca1 x = getCasinoAgent ca x)) ∧
    (∀ rid ra, e.referrer_id = some rid → rid ≠ "" →
      0 < e.referral_commission_usd → getCasinoAgent ca rid = some ra →
      rid ≠ e.counterparty_id →
      ∃ ca2, escrowRelease es ca actorId escrowId now =
        (Except.ok (round6 (e.amount_usd - e.commission_usd)),
         releaseEscrow es escrowId (some actorId)
           ("Released by creator " ++ actorId) now, ca2) ∧
        balanceOf ca2 e.counterparty_id =
          some (cp.balance_usd + round6 (e.amount_usd - e.commission_usd)) ∧
        balanceOf ca2 rid = some (ra.balance_usd + e.referral_commission_usd) ∧
        (∀ x, x ≠ e.counterparty_id → x ≠ rid →
          getCasinoAgent ca2 x = getCasinoAgent ca x)) := by
  refine ⟨⟨?_, rfl, ?_⟩, ?_, ?_⟩
  · rw [getEscrow_releaseEscrow, he]
    simp only [Option.map_some']
    rw [if_pos ⟨getEscrow_some_id he, hst⟩]
  · show es.stats.total_commission_usd +
        (((getEscrow es escrowId).map (fun e => e.commission_usd)).getD 0) =
      es.stats.total_commission_usd + e.commission_usd
    rw [he]
    rfl
  · intro hno
    obtain ⟨ca1, hcc1⟩ := @credit_isSome ca e.counterparty_id
      (round6 (e.amount_usd - e.commission_usd)) ("escrow_release: " ++ escrowId)
      (escrowId ++ "_release") cp hcp
    refine ⟨ca1, ?_, balanceOf_credit_self hcc1 hcp,
      fun x hx => getCasinoAgent_credit_other hcc1 hx⟩
    unfold escrowRelease
    rw [he]
    dsimp only
    rw [if_neg (not_not_intro hcr), if_neg (not_not_intro hst), hcc1]
    dsimp only
    cases hrr : e.referrer_id with
    | none => rfl
    | some rid =>
      dsimp only
      have hnot : ¬ (rid ≠ "" ∧ 0 < e.referral_commission_usd) := by
        rcases hno with h0 | h0 | h0
        · rw [h0] at hrr
          exact Option.noConfusion hrr
        · have h1 : rid = "" := by
            rw [h0] at hrr
            injection hrr with h2
            exact h2.symm
          exact fun hc => hc.1 h1
        · exact fun hc => absurd hc.2 (not_lt.2 h0)
      rw [if_neg hnot]
  · intro rid ra hrr hne hpos hra hrcp
    obtain ⟨ca1, hcc1⟩ := @credit_isSome ca e.counterparty_id
      (round6 (e.amount_usd - e.commission_usd)) ("escrow_release: " ++ escrowId)
      (escrowId ++ "_release") cp hcp
    have hra1 : getCasinoAgent ca1 rid = some ra := by
      rw [getCasinoAgent_credit_other hcc1 hrcp]
      exact hra
    obtain ⟨ca2, hcc2⟩ := @credit_isSome ca1 rid e.referral_commission_usd
      ("escrow_referral_commission: " ++ escrowId) (escrowId ++ "_refcom") ra hra1
    refine ⟨ca2, ?_, ?_, balanceOf_credit_self hcc2 hra1, ?_⟩
    · unfold escrowRelease
      rw [he]
      dsimp only
      rw [if_neg (not_not_intro hcr), if_neg (not_not_intro hst), hcc1]
      dsimp only
      rw [hrr]
      dsimp only
      rw [if_pos ⟨hne, hpos⟩, hcc2]
    · unfold balanceOf
      rw [getCasinoAgent_credit_other hcc2 (Ne.symm hrcp)]
      exact balanceOf_credit_self hcc1 hcp
    · intro x hx1 hx2
      rw [getCasinoAgent_credit_other hcc2 hx2]
      exact getCasinoAgent_credit_other hcc1 hx1

/-- C2 witness: releasing the concrete funded escrow credits the counterparty
the rounded net amount, releases the record, and touches no other account. -/
theorem C2_release_effect_witness :
    ∃ ca1, escrowRelease cex8Es caW "ag_a" "esc_f" 6000 =
      (Except.ok (round6 (escF.amount_usd - escF.commission_usd)),
       releaseEscrow cex8Es "esc_f" (some "ag_a")
         ("Released by creator " ++ "ag_a") 6000, ca1) ∧
      balanceOf ca1 escF.counterparty_id =
        some ((5 : ℚ) + round6 (escF.amount_usd - escF.commission_usd)) ∧
      (∀ x, x ≠ escF.counterparty_id →
        getCasinoAgent ca1 x = getCasinoAgent caW x) :=
  (@C2_release_effect cex8Es caW "ag_a" "esc_f" 6000 escF
    ⟨"ag_b", 5, none, some "ref_b"⟩ rfl rfl (Or.inl rfl) rfl).2.1 (Or.inl rfl)

/-- C4: a sweeper pass whose expired set is exactly one escrow (status
`funded` or `completed`, deadline at or before `now`) credits the creator
exactly `amount − commission` (unrounded in the source), credits the referrer
its referral commission when applicable, sets the record to `refunded`, and
leaves every escrow that is not expired-and-unresolved untouched. -/
theorem C4_sweeper_effect {es : EscrowState} {ca : Casino} {now : ℤ} {E : Escrow}
    {creator : CasinoAgent}
    (hnd : IdsNodup es)
    (hone : es.escrows.filter (isExpired now) = [E])
    (hcr : getCasinoAgent ca E.creator_id = some creator) :
    (∀ x ∈ es.escrows, isExpired now x = false →
      getEscrow (processAutoReleases es ca now).1 x.id = some x) ∧
    ((E.referrer_id = none ∨ E.referrer_id = some "" ∨
        E.referral_commission_usd ≤ 0) →
      ∃ ca1, processAutoReleases es ca now =
        (refundEscrow es E.id "Auto-refunded after timeout" now, ca1) ∧
        balanceOf ca1 E.creator_id =
          some (creator.balance_usd + (E.amount_usd - E.commission_usd)) ∧
        (∀ x, x ≠ E.creator_id → getCasinoAgent ca1 x = getCasinoAgent ca x) ∧
        getEscrow (processAutoReleases es ca now).1 E.id =
          some { E with status := Status.refunded, released_at := some now }) ∧
    (∀ rid ra, E.referrer_id = some rid → rid ≠ "" →
      0 < E.referral_commission_usd → getCasinoAgent ca rid = some ra →
      rid ≠ E.creator_id →
      ∃ ca2, processAutoReleases es ca now =
        (refundEscrow es E.id "Auto-refunded after timeout" now, ca2) ∧
        balanceOf ca2 E.creator_id =
          some (creator.balance_usd + (E.amount_usd - E.commission_usd)) ∧
        balanceOf ca2 rid = some (ra.balance_usd + E.referral_commission_usd) ∧
        (∀ x, x ≠ E.creator_id → x ≠ rid →
          getCasinoAgent ca2 x = getCasinoAgent ca x) ∧
        getEscrow (processAutoReleases es ca now).1 E.id =
          some { E with status := Status.refunded, released_at := some now }) := by
  have hred : processAutoReleases es ca now = autoRefundOne now (es, ca) E := by
    unfold processAutoReleases
    rw [hone]
    rfl
  have hmemF : E ∈ es.escrows.filter (isExpired now) := by
    rw [hone]
    exact List.mem_singleton_self E
  have hmemE : E ∈ es.escrows := (List.mem_filter.1 hmemF).1
  have hgetE : getEscrow es E.id = some E := getEscrow_eq_of_mem_nodup hmemE hnd
  refine ⟨fun x hx hne => sweep_keeps_record ca now hnd hx hne, ?_, ?_⟩
  · intro hno
    obtain ⟨ca1, hcc1⟩ := @credit_isSome ca E.creator_id
      (E.amount_usd - E.commission_usd) ("escrow_timeout_refund: " ++ E.id)
      (E.id ++ "_timeout") creator hcr
    have hpro : processAutoReleases es ca now =
        (refundEscrow es E.id "Auto-refunded after timeout" now, ca1) := by
      rw [hred]
      unfold autoRefundOne
      rw [hcc1]
      dsimp only
      cases hrr : E.referrer_id with
      | none => rfl
      | some rid =>
        dsimp only
        have hnot : ¬ (rid ≠ "" ∧ 0 < E.referral_commission_usd) := by
          rcases hno with h0 | h0 | h0
          · rw [h0] at hrr
            exact Option.noConfusion hrr
          · have h1 : rid = "" := by
              rw [h0] at hrr
              injection hrr with h2
              exact h2.symm
            exact fun hc => hc.1 h1
          · exact fun hc => absurd hc.2 (not_lt.2 h0)
        rw [if_neg hnot]
    refine ⟨ca1, hpro, balanceOf_credit_self hcc1 hcr,
      fun x hx => getCasinoAgent_credit_other hcc1 hx, ?_⟩
    rw [hpro]
    dsimp only
    rw [getEscrow_refundEscrow, hgetE]
    simp only [Option.map_some', eq_self_iff_true, if_true]
  · intro rid ra hrr hne hpos hra hrner
    obtain ⟨ca1, hcc1⟩ := @credit_isSome ca E.creator_id
      (E.amount_usd - E.commission_usd) ("escrow_timeout_refund: " ++ E.id)
      (E.id ++ "_timeout") creator hcr
    have hra1 : getCasinoAgent ca1 rid = some ra := by
      rw [getCasinoAgent_credit_other hcc1 hrner]
      exact hra
    obtain ⟨ca2, hcc2⟩ := @credit_isSome ca1 rid E.referral_commission_usd
      ("escrow_referral_commission: " ++ E.id) (E.id ++ "_refcom") ra hra1
    have hpro : processAutoReleases es ca now =
        (refundEscrow es E.id "Auto-refunded after timeout" now, ca2) := by
      rw [hred]
      unfold autoRefundOne
      rw [hcc1]
      dsimp only
      rw [hrr]
      dsimp only
      rw [if_pos ⟨hne, hpos⟩, hcc2]
    refine ⟨ca2, hpro, ?_, balanceOf_credit_self hcc2 hra1, ?_, ?_⟩
    · unfold balanceOf
      rw [getCasinoAgent_credit_other hcc2 (Ne.symm hrner)]
      exact balanceOf_credit_self hcc1 hcr
    · intro x hx1 hx2
      rw [getCasinoAgent_credit_other hcc2 hx2]
      exact getCasinoAgent_credit_other hcc1 hx1
    · rw [hpro]
      dsimp only
      rw [getEscrow_refundEscrow, hgetE]
      simp only [Option.map_some', eq_self_iff_true, if_true]

/-- C4 witness: the sweeper on the concrete expired funded escrow refunds the
creator `amount − commission` and marks the record refunded. -/
theorem C4_sweeper_effect_witness :
    ∃ ca1, processAutoReleases cex8Es caW 5000 =
      (refundEscrow cex8Es escF.id "Auto-refunded after timeout" 5000, ca1) ∧
      balanceOf ca1 escF.creator_id =
        some ((100 : ℚ) + (escF.amount_usd - escF.commission_usd)) ∧
      (∀ x, x ≠ escF.creator_id →
        getCasinoAgent ca1 x = getCasinoAgent caW x) ∧
      getEscrow (processAutoReleases cex8Es caW 5000).1 escF.id =
        some { escF with status := Status.refunded, released_at := some 5000 } :=
  (@C4_sweeper_effect cex8Es caW 5000 escF ⟨"ag_a", 100, none, some "ref_a"⟩
    (by unfold IdsNodup; decide) rfl rfl).2.1 (Or.inl rfl)

end AgentEscrow
